import Mathlib

/-!
Verification development for the minimax-docx schema-conformance engine.

The Python sources embedded here (shallowly) are:
  * `spec/ns.py`              — Clark-notation namespace helpers
  * `spec/ooxml_order.py`     — layered child-order registry
  * `spec/tree_fixer.py`      — stable child sorter
  * `spec/document_repair.py` — structural repair passes (`DocumentFixer`)
  * `check/report.py`         — `Gravity`, `Issue`, `ValidationReport`
  * `check/detectors.py`      — read-only validation detectors
  * `check/pipeline.py`       — `ValidationPipeline.run`
  * `packaging/opc.py`        — content-type driven archive ordering

XML element trees (`xml.etree.ElementTree.Element`) are modelled by the
inductive `Elem` below: a tag in Clark notation, an attribute dictionary
(association list with unique keys, insertion ordered, as Python dicts are),
and the ordered list of children.  Mutating Python code is modelled by
functions returning the new tree.  Machine integers are `Int`/`Nat`
(Python ints are unbounded, so no wrap-around modelling is needed).
-/

/-- Model of `xml.etree.ElementTree.Element`: tag (Clark notation),
attributes, ordered children. -/
structure Elem where
  tag : String
  attrs : List (String × String)
  children : List Elem

/-- Embeds `ns.py`: the WordprocessingML main namespace URI (`W`, also `WML` in
`check/detectors.py`). -/
def nsW : String := "http://schemas.openxmlformats.org/wordprocessingml/2006/main"

/-- Embeds `ns.py`: the officeDocument relationships namespace URI (`R` / `REL`). -/
def nsR : String := "http://schemas.openxmlformats.org/officeDocument/2006/relationships"

/-- Embeds `ns.py`: the wordprocessingDrawing namespace URI (`WP`). -/
def nsWP : String := "http://schemas.openxmlformats.org/drawingml/2006/wordprocessingDrawing"

/-- Embeds `ns.py`: the DrawingML main namespace URI (`A`). -/
def nsA : String := "http://schemas.openxmlformats.org/drawingml/2006/main"

/-- Embeds `ns.py`: the OPC package relationships namespace URI (`PACKAGE_REL`). -/
def nsPkgRel : String := "http://schemas.openxmlformats.org/package/2006/relationships"

/-- Embeds `ns.clark`: build a Clark-notation tag `{namespace}localname`.
(The prefix-registration side effect of the Python function only affects
serialisation, which is out of scope.) -/
def clarkNs (ns localName : String) : String := "\x7b" ++ ns ++ "\x7d" ++ localName

/-- Embeds `ns.clark` with its default namespace argument `W`. -/
def clark (localName : String) : String := clarkNs nsW localName

/-- Embeds `tree_fixer.tag_name`: extract the local name from Clark notation
(`s[s.rfind("\x7d")+1:]`, or `s` itself when no closing brace occurs) —
i.e. the suffix of the string after its last closing brace. -/
def tag_name (s : String) : String :=
  String.mk ((s.data.reverse.takeWhile (fun c => ¬ (c = '\x7d'))).reverse)

/-- Embeds `Element.get(attr)`: first (unique) binding of `attr` in the attribute
dictionary. -/
def Elem.get (e : Elem) (attr : String) : Option String :=
  (e.attrs.find? (fun p => p.1 == attr)).map (·.2)

/-- Embeds `Element.set(attr, value)`: overwrite an existing binding in place, or
append a new one (Python dicts keep insertion order). -/
def Elem.setAttr (e : Elem) (attr value : String) : Elem :=
  if (e.attrs.find? (fun p => p.1 == attr)).isSome then
    ⟨e.tag, e.attrs.map (fun p => if p.1 == attr then (attr, value) else p), e.children⟩
  else
    ⟨e.tag, e.attrs ++ [(attr, value)], e.children⟩

/-- Embeds `Element.findall(tag)` with a plain Clark tag: the direct children whose
tag matches, in order. -/
def Elem.findall (e : Elem) (t : String) : List Elem :=
  e.children.filter (fun c => c.tag == t)

/-- Embeds `Element.find(tag)`: the first direct child whose tag matches. -/
def Elem.find (e : Elem) (t : String) : Option Elem :=
  e.children.find? (fun c => c.tag == t)

mutual
/-- Total number of nodes of a tree (used to bound recursion depth of the
repair walk). -/
def Elem.size : Elem → Nat
  | ⟨_, _, cs⟩ => 1 + sizeList cs
/-- Total number of nodes of a forest. -/
def sizeList : List Elem → Nat
  | [] => 0
  | c :: cs => Elem.size c + sizeList cs
end

mutual
/-- Embeds `Element.findall(".//tag")` support: all proper descendants of a node in
document (preorder) order.  `findall(".//t")` never matches the node itself,
matching Python. -/
def Elem.descendants : Elem → List Elem
  | ⟨_, _, cs⟩ => descList cs
/-- Descendants of a forest, each tree contributing itself then its own
descendants. -/
def descList : List Elem → List Elem
  | [] => []
  | c :: cs => c :: (Elem.descendants c ++ descList cs)
end

/-- Embeds `Element.findall(".//tag")`: every proper descendant with the given tag,
in document order. -/
def Elem.findallDesc (e : Elem) (t : String) : List Elem :=
  e.descendants.filter (fun c => c.tag == t)

/-! Integer parsing

`document_repair.DocumentFixer._safe_int` calls Python `int(raw)`, which
accepts an optional sign followed by decimal digits (we do not model the
whitespace stripping and `_` digit separators Python additionally allows —
no OOXML numeric attribute in scope uses them).  The detectors instead use
`str.isdigit()` followed by `int`, i.e. unsigned digit strings only. -/

/-- Numeric value of an all-digit character list (helper). -/
def digitsVal (l : List Char) : Nat :=
  l.foldl (fun a c => 10 * a + (c.toNat - 48)) 0

/-- Parse a nonempty all-digit character list; `none` otherwise.
This is exactly the domain on which `str.isdigit()` holds and `int` then
succeeds (restricted to ASCII digits). -/
def parse_digits (l : List Char) : Option Nat :=
  if l.isEmpty then none
  else if l.all Char.isDigit then some (digitsVal l) else none

/-- Embeds `check/detectors.py` pattern `if s and s.isdigit(): int(s)`:
unsigned decimal parse. -/
def digit_nat (s : String) : Option Nat := parse_digits s.data

/-- Character-level body of `_safe_int`: optional sign then digits. -/
def safe_int_chars : List Char → Option Int
  | [] => none
  | c :: rest =>
    if c = '-' then (parse_digits rest).map (fun n => -(n : Int))
    else if c = '+' then (parse_digits rest).map (fun n => (n : Int))
    else (parse_digits (c :: rest)).map (fun n => (n : Int))

/-- Embeds `DocumentFixer._safe_int`: `int(raw)` with `ValueError ↦ None`;
`None` input stays `None`.  Optional sign then digits. -/
def safe_int (raw : Option String) : Option Int :=
  match raw with
  | none => none
  | some s => safe_int_chars s.data

/-! Source file `spec/ooxml_order.py` — layered order registry -/

/-- Embeds `RuleLevel`: strictness levels of an ordering rule phase. -/
inductive RuleLevel where
  | must | should | may | vendor
deriving DecidableEq, Repr

/-- Embeds `AssemblyPhase`: one named layer of ordering guidance. -/
structure AssemblyPhase where
  name : String
  elements : List String
  level : RuleLevel
deriving DecidableEq, Repr

/-- Embeds `ContainerOrder`: a container's ordered list of phases. -/
structure ContainerOrder where
  name : String
  phases : List AssemblyPhase
deriving DecidableEq, Repr

/-- Embeds `DEFAULT_PROFILE = "repair"`. -/
def DEFAULT_PROFILE : String := "repair"

/-- Embeds `PROFILE_LEVELS`: profile name → included rule levels. -/
def PROFILE_LEVELS : List (String × List RuleLevel) :=
  [("minimal", [.must]),
   ("repair", [.must, .should]),
   ("compat", [.must, .should, .may]),
   ("strict", [.must, .should, .may, .vendor])]

/-- Embeds `_levels_for_profile`: `PROFILE_LEVELS.get(profile, PROFILE_LEVELS[DEFAULT_PROFILE])` —
unknown profiles silently fall back to the `repair` level set. -/
def levels_for_profile (profile : String) : List RuleLevel :=
  match PROFILE_LEVELS.find? (fun p => p.1 == profile) with
  | some p => p.2
  | none =>
    match PROFILE_LEVELS.find? (fun p => p.1 == DEFAULT_PROFILE) with
    | some p => p.2
    | none => []

/-- Embeds `_flatten_unique`: concatenate the parts in order, keeping the first
occurrence of each element only.  The Python loop carries an output list
`ordered` and a membership set `seen`; both are carried here as lists (the
`seen` list is only queried for membership). -/
def flatten_unique (parts : List (List String)) : List String :=
  (parts.foldl
    (fun st part =>
      part.foldl
        (fun st element =>
          if element ∈ st.2 then st else (st.1 ++ [element], element :: st.2))
        st)
    (([] : List String), ([] : List String))).1

/-- Embeds `ContainerOrder.build_sequence(profile)`: flatten the elements of the
phases whose level the profile includes. -/
def ContainerOrder.build_sequence (co : ContainerOrder) (profile : String) : List String :=
  let levels := levels_for_profile profile
  flatten_unique ((co.phases.filter (fun ph => ph.level ∈ levels)).map (fun ph => ph.elements))

/-- Embeds `_phase` helper from the source, used to transcribe `ORDER_BOOK`. -/
def phaseOf (level : RuleLevel) (name : String) (elements : List String) : AssemblyPhase :=
  ⟨name, elements, level⟩

/-- Embeds `ORDER_BOOK`: the full declarative container → phased order table,
transcribed verbatim (dict modelled as an insertion-ordered association
list). -/
def ORDER_BOOK : List (String × ContainerOrder) :=
  [("rPr", ⟨"rPr",
     [phaseOf .must "must-core" ["rStyle", "rFonts", "b", "i", "color", "sz", "szCs", "u", "rtl"],
      phaseOf .should "should-emphasis" ["bCs", "iCs", "caps", "smallCaps", "strike", "dstrike", "highlight", "vertAlign", "lang", "oMath"],
      phaseOf .may "may-typography" ["spacing", "w", "kern", "position", "fitText", "eastAsianLayout"],
      phaseOf .vendor "vendor-tail" ["specVanish"]]⟩),
   ("pPr", ⟨"pPr",
     [phaseOf .must "must-layout" ["pStyle", "numPr", "pBdr", "tabs", "spacing", "ind", "jc", "rPr", "sectPr"],
      phaseOf .should "should-flow-control" ["keepNext", "keepLines", "pageBreakBefore", "widowControl", "textDirection", "textAlignment", "outlineLvl", "pPrChange"],
      phaseOf .may "may-asian-layout" ["kinsoku", "wordWrap", "autoSpaceDE", "autoSpaceDN", "snapToGrid"],
      phaseOf .vendor "vendor-formatting" ["divId", "cnfStyle"]]⟩),
   ("sectPr", ⟨"sectPr",
     [phaseOf .must "must-page-model" ["type", "pgSz", "pgMar", "cols", "docGrid"],
      phaseOf .should "should-section-flags" ["headerReference", "footerReference", "footnotePr", "endnotePr", "titlePg", "textDirection", "bidi", "rtlGutter"],
      phaseOf .may "may-page-extensions" ["paperSrc", "pgBorders", "lnNumType", "pgNumType", "printerSettings"],
      phaseOf .vendor "vendor-tail" ["sectPrChange"]]⟩),
   ("tcPr", ⟨"tcPr",
     [phaseOf .must "must-cell" ["tcW", "gridSpan", "hMerge", "vMerge", "tcBorders", "tcMar", "vAlign"],
      phaseOf .should "should-cell-layout" ["cnfStyle", "shd", "noWrap", "textDirection", "tcFitText", "hideMark"],
      phaseOf .may "may-cell-revision" ["headers", "cellIns", "cellDel", "cellMerge"],
      phaseOf .vendor "vendor-tail" ["tcPrChange"]]⟩),
   ("tblPr", ⟨"tblPr",
     [phaseOf .must "must-table" ["tblStyle", "tblW", "jc", "tblBorders", "tblLayout", "tblCellMar", "tblLook"],
      phaseOf .should "should-table-layout" ["tblpPr", "tblCellSpacing", "tblInd", "shd", "tblStyleRowBandSize", "tblStyleColBandSize"],
      phaseOf .may "may-table-meta" ["tblOverlap", "bidiVisual", "tblCaption", "tblDescription"],
      phaseOf .vendor "vendor-tail" ["tblPrChange"]]⟩),
   ("tblBorders", ⟨"tblBorders",
     [phaseOf .must "must-outer-and-inner" ["top", "left", "bottom", "right", "insideH", "insideV"],
      phaseOf .may "may-bidi-edges" ["start", "end"]]⟩),
   ("pBdr", ⟨"pBdr",
     [phaseOf .must "must-border-loop" ["top", "left", "bottom", "right", "between", "bar"]]⟩),
   ("tcMar", ⟨"tcMar",
     [phaseOf .must "must-box" ["top", "left", "bottom", "right"],
      phaseOf .should "should-bidi" ["start", "end"]]⟩),
   ("tblCellMar", ⟨"tblCellMar",
     [phaseOf .must "must-box" ["top", "left", "bottom", "right"],
      phaseOf .should "should-bidi" ["start", "end"]]⟩),
   ("lvl", ⟨"lvl",
     [phaseOf .must "must-numbering" ["start", "numFmt", "lvlText", "lvlJc", "pPr", "rPr"],
      phaseOf .should "should-numbering-controls" ["lvlRestart", "pStyle", "isLgl", "suff", "lvlPicBulletId"],
      phaseOf .may "may-legacy" ["legacy"]]⟩),
   ("numbering", ⟨"numbering",
     [phaseOf .must "must-numbering-root" ["abstractNum", "num"],
      phaseOf .should "should-numbering-extensions" ["numPicBullet"],
      phaseOf .vendor "vendor-tail" ["numIdMacAtCleanup"]]⟩),
   ("tr", ⟨"tr",
     [phaseOf .must "must-row-core" ["tblPrEx", "trPr", "tc"],
      phaseOf .should "should-row-content" ["customXml", "sdt", "bookmarkStart", "bookmarkEnd"],
      phaseOf .may "may-ranges" ["commentRangeStart", "commentRangeEnd", "moveFromRangeStart", "moveFromRangeEnd", "moveToRangeStart", "moveToRangeEnd"],
      phaseOf .vendor "vendor-ranges" ["customXmlInsRangeStart", "customXmlInsRangeEnd", "customXmlDelRangeStart", "customXmlDelRangeEnd", "customXmlMoveFromRangeStart", "customXmlMoveFromRangeEnd", "customXmlMoveToRangeStart", "customXmlMoveToRangeEnd"]]⟩),
   ("style", ⟨"style",
     [phaseOf .must "must-style-identity" ["name", "basedOn", "next", "qFormat"],
      phaseOf .should "should-style-switches" ["aliases", "link", "uiPriority", "semiHidden", "unhideWhenUsed", "locked", "rsid"],
      phaseOf .must "must-style-payload" ["pPr", "rPr", "tblPr", "trPr", "tcPr", "tblStylePr"],
      phaseOf .may "may-style-personalization" ["autoRedefine", "hidden", "personal", "personalCompose", "personalReply"]]⟩),
   ("tbl", ⟨"tbl",
     [phaseOf .must "must-table-core" ["tblPr", "tblGrid", "tr"],
      phaseOf .should "should-table-anchors" ["bookmarkStart", "bookmarkEnd", "commentRangeStart", "commentRangeEnd"],
      phaseOf .may "may-move-ranges" ["moveFromRangeStart", "moveFromRangeEnd", "moveToRangeStart", "moveToRangeEnd"],
      phaseOf .vendor "vendor-custom-ranges" ["customXmlInsRangeStart", "customXmlInsRangeEnd", "customXmlDelRangeStart", "customXmlDelRangeEnd", "customXmlMoveFromRangeStart", "customXmlMoveFromRangeEnd", "customXmlMoveToRangeStart", "customXmlMoveToRangeEnd"]]⟩),
   ("body", ⟨"body",
     [phaseOf .must "must-main-flow" ["p", "tbl"],
      phaseOf .should "should-embedded-blocks" ["customXml", "sdt", "altChunk"],
      phaseOf .may "may-ranges" ["bookmarkStart", "bookmarkEnd", "commentRangeStart", "commentRangeEnd"],
      phaseOf .vendor "vendor-move-ranges" ["moveFromRangeStart", "moveFromRangeEnd", "moveToRangeStart", "moveToRangeEnd", "customXmlInsRangeStart", "customXmlInsRangeEnd", "customXmlDelRangeStart", "customXmlDelRangeEnd", "customXmlMoveFromRangeStart", "customXmlMoveFromRangeEnd", "customXmlMoveToRangeStart", "customXmlMoveToRangeEnd"],
      phaseOf .must "must-tail" ["sectPr"]]⟩),
   ("settings", ⟨"settings",
     [phaseOf .must "must-core" ["writeProtection", "view", "zoom", "trackRevisions", "documentProtection", "defaultTabStop", "defaultTableStyle", "compat", "rsids", "mathPr", "themeFontLang", "clrSchemeMapping"],
      phaseOf .should "should-proofing-and-layout" ["hideSpellingErrors", "hideGrammaticalErrors", "proofState", "attachedTemplate", "linkStyles", "evenAndOddHeaders", "bookFoldPrinting", "bookFoldPrintingSheets", "drawingGridHorizontalSpacing", "drawingGridVerticalSpacing", "characterSpacingControl"],
      phaseOf .may "may-xml-handling" ["doNotValidateAgainstSchema", "saveInvalidXml", "ignoreMixedContent", "showXMLTags", "alwaysMergeEmptyNamespace", "updateFields"],
      phaseOf .vendor "vendor-tail" ["docId", "defaultImageDpi", "conflictMode", "decimalSymbol", "listSeparator"]]⟩)]

/-- Embeds `get_child_order(container, profile)`: `None` for unregistered containers,
otherwise the flattened sequence for the profile. -/
def get_child_order (container : String) (profile : String) : Option (List String) :=
  match ORDER_BOOK.find? (fun p => p.1 == container) with
  | none => none
  | some p => some (p.2.build_sequence profile)

/-- Embeds `LayeredSchemaProvider.__init__`: raises `ValueError` on a profile not in
`PROFILE_LEVELS` (modelled as `Except`); otherwise stores the profile. -/
def mkLayeredSchemaProvider (profile : String) : Except String String :=
  if (PROFILE_LEVELS.find? (fun p => p.1 == profile)).isSome then .ok profile
  else .error ("unknown profile: " ++ profile)

/-- The schema-provider function used by `create_default_fixer("repair")`:
`LayeredSchemaProvider("repair").get_child_order`. -/
def repair_schema (container : String) : Option (List String) :=
  get_child_order container "repair"

/-! Source file `spec/tree_fixer.py` — stable child sorter -/

/-- Insert-or-update into a Python-dict model (association list, insertion
ordered, later assignments to the same key overwrite in place). -/
def dict_insert {α : Type} (m : List (String × α)) (k : String) (v : α) : List (String × α) :=
  if (m.find? (fun p => p.1 == k)).isSome then
    m.map (fun p => if p.1 == k then (k, v) else p)
  else m ++ [(k, v)]

/-- Dict lookup returning `Option`. -/
def dict_get {α : Type} (m : List (String × α)) (k : String) : Option α :=
  (m.find? (fun p => p.1 == k)).map (·.2)

/-- Embeds `tree_fixer.make_rank_index`: `{name: idx for idx, name in enumerate(sequence)}` —
a dict, so a duplicated name keeps its *last* index. -/
def make_rank_index (sequence : List String) : List (String × Nat) :=
  sequence.enum.foldl (fun m p => dict_insert m p.2 p.1) []

/-- The `ordering_key` of `sort_by_spec` for the enumerated child `(i, e)`,
encoded as a single natural: Python sorts by the pair
`(rank, original index)`; since every original index is `< n`
(`n` = number of children), the lexicographic pair order coincides with the
order of `rank * n + index`. -/
def sort_key (spec_order : List String) (n : Nat) (p : Nat × Elem) : Nat :=
  ((dict_get (make_rank_index spec_order) (tag_name p.2.tag)).getD spec_order.length) * n + p.1

/-- Embeds `tree_fixer.sort_by_spec`, modelled on the child list: returns
`(changed?, new children)`.  Python's `sorted` is a stable sort on the key
`(rank, original index)`; that key is injective over the enumerated
children, so the sorted permutation is unique and `List.insertionSort`
computes the same list.  The no-change test `all(a is b for a, b in
zip(children, sorted_children))` compares object identities positionwise,
which (the lists being permutations of equal length) holds exactly when
every child keeps its original index. -/
def sort_by_spec (children : List Elem) (spec_order : List String) : Bool × List Elem :=
  if children.length < 2 then (false, children)
  else
    let keyed := children.enum
    let sorted_pairs :=
      List.insertionSort
        (fun a b => sort_key spec_order children.length a ≤ sort_key spec_order children.length b)
        keyed
    if sorted_pairs.map Prod.fst = keyed.map Prod.fst then (false, children)
    else (true, sorted_pairs.map Prod.snd)

/-! Source file `spec/document_repair.py` — `DocumentFixer` -/

/-- Embeds `RepairEvent`: audit record of one structural mutation. -/
structure RepairEvent where
  action : String
  container : String
  detail : String
  touched : Nat
deriving DecidableEq, Repr

/-- Embeds `DocumentFixer._BORDER_LEAVES`. -/
def BORDER_LEAVES : List String := ["top", "left", "bottom", "right", "between", "bar"]

/-- Embeds `DocumentFixer._node_int`: parse `node.get(attr)`; `None`, unparsable or
non-positive values fall back. -/
def node_int (node : Option Elem) (attr : String) (fallback : Int) : Int :=
  match node with
  | none => fallback
  | some n =>
    match safe_int (n.get attr) with
    | none => fallback
    | some parsed => if parsed ≤ 0 then fallback else parsed

/-- The column loop of `DocumentFixer._grid_widths`: parse each `gridCol`
width, aborting (`return None`) at the first unparsable one. -/
def grid_widths_go : List Elem → Option (List Int)
  | [] => some []
  | col :: rest =>
    match safe_int (col.get (clark "w")) with
    | none => none
    | some v => (grid_widths_go rest).map (fun ws => v :: ws)

/-- Embeds `DocumentFixer._grid_widths`: all-or-nothing parse of the `gridCol`
widths; any unparsable column (or a missing/empty grid) yields `None`
(`return widths or None`). -/
def grid_widths (grid : Option Elem) : Option (List Int) :=
  match grid with
  | none => none
  | some g =>
    match grid_widths_go (g.findall (clark "gridCol")) with
    | none => none
    | some widths => if widths.isEmpty then none else some widths

/-- The body of `DocumentFixer.ensure_sectpr_last`, on the child list:
partition into non-`sectPr` then `sectPr` children (each side keeping its
relative order); report no change when the rebuilt list is positionwise
identical (Python compares object identity, modelled by original indices). -/
def ensure_sectpr_last (children : List Elem) : Bool × List Elem :=
  if children.isEmpty then (false, children)
  else
    let idx := children.enum
    let section_nodes := idx.filter (fun p => tag_name p.2.tag == "sectPr")
    if section_nodes.isEmpty then (false, children)
    else
      let content_nodes := idx.filter (fun p => ¬ (tag_name p.2.tag == "sectPr"))
      let reordered := content_nodes ++ section_nodes
      if reordered.map Prod.fst = idx.map Prod.fst then (false, children)
      else (true, reordered.map Prod.snd)

/-- The insertion index computed by `DocumentFixer._insert_at_schema_slot`:
append when the parent has no registered order or the slot name is not in
it; otherwise insert before the first existing child whose rank exceeds the
slot's rank (unranked children rank as `len(rank) + position`). -/
def insert_slot_index (schema : String → Option (List String))
    (parent : Elem) (slot_name : String) : Nat :=
  match schema (tag_name parent.tag) with
  | none => parent.children.length
  | some order =>
    if order.isEmpty ∨ ¬ (slot_name ∈ order) then parent.children.length
    else
      let rank := make_rank_index order
      let slot_rank := (dict_get rank slot_name).getD 0
      match parent.children.enum.find?
          (fun p => slot_rank < (dict_get rank (tag_name p.2.tag)).getD (rank.length + p.1)) with
      | some p => p.1
      | none => parent.children.length

/-- Embeds `DocumentFixer.wrap_border_group`: move loose border leaves of a `pPr`
into a (possibly created) `pBdr` child, then sort that child's children by
the `pBdr` order.  Returns `(number of leaves moved, new node)`.
Python removes the loose leaves by object identity; children are tracked
here by their original index.  When the `pBdr` node is created it is
inserted at the schema slot computed over the *current* children (the loose
leaves are removed only afterwards, as in the source). -/
def wrap_border_group (schema : String → Option (List String)) (ppr : Elem) : Nat × Elem :=
  let idx := ppr.children.enum
  let looseIdx := idx.filter (fun p => tag_name p.2.tag ∈ BORDER_LEAVES)
  if looseIdx.isEmpty then (0, ppr)
  else
    let loose := looseIdx.map Prod.snd
    let looseIs := looseIdx.map Prod.fst
    let sortPbdr := fun (cs : List Elem) =>
      match repairOrderOf schema with
      | some border_order => (sort_by_spec cs border_order).2
      | none => cs
    match idx.find? (fun p => p.2.tag == clark "pBdr") with
    | some pj =>
      let newPbdrChildren := sortPbdr (pj.2.children ++ loose)
      let newChildren := idx.filterMap (fun p =>
        if p.1 ∈ looseIs then none
        else if p.1 == pj.1 then some ⟨pj.2.tag, pj.2.attrs, newPbdrChildren⟩
        else some p.2)
      (loose.length, ⟨ppr.tag, ppr.attrs, newChildren⟩)
    | none =>
      let insertIdx := insert_slot_index schema ppr "pBdr"
      let pbdr : Elem := ⟨clark "pBdr", [], sortPbdr loose⟩
      let before := (idx.filter (fun p => p.1 < insertIdx ∧ ¬ (p.1 ∈ looseIs))).map Prod.snd
      let after := (idx.filter (fun p => insertIdx ≤ p.1 ∧ ¬ (p.1 ∈ looseIs))).map Prod.snd
      (loose.length, ⟨ppr.tag, ppr.attrs, before ++ pbdr :: after⟩)
where
  /-- `self._schema.get_child_order("pBdr")`, empty orders treated as falsy. -/
  repairOrderOf (schema : String → Option (List String)) : Option (List String) :=
    match schema "pBdr" with
    | some o => if o.isEmpty then none else some o
    | none => none

/-- Replace the first child satisfying the predicate (helper used to model
in-place mutation of a found child). -/
def replace_first (p : Elem → Bool) (f : Elem → Elem) : List Elem → List Elem
  | [] => []
  | c :: cs => if p c then f c :: cs else c :: replace_first p f cs

/-- The per-cell step of `DocumentFixer.align_grid` (the body of the
`for cell in row.findall(...)` loop), parameterised by the drift
tolerance numerator `tolNum` (the source hard-codes `0.04`, i.e.
`tolNum = 4`; the read-only detector uses the same check at `0.08`).
Returns the (possibly width-rewritten) cell, the advanced column
cursor, and the flagged `(actual, expected)` pair if any.

The source's float comparison `abs(actual - expected) / expected > 0.04`
is modelled exactly by the integer comparison
`100 * |actual - expected| > tolNum * expected` (for `expected > 0`): the
IEEE double nearest to `0.04` differs from `4/100` by under `2^-57`, so for
the sub-`2^50` integer widths representable in a `w:w` attribute the float
comparison and the exact rational comparison agree. -/
def align_cell (tolNum : Nat) (widths : List Int) (cursor : Nat) (cell : Elem) :
    Elem × Nat × List (Int × Int) :=
  match cell.find (clark "tcPr") with
  | none => (cell, cursor + 1, [])
  | some tc_pr =>
    let span := (node_int (tc_pr.find (clark "gridSpan")) (clark "val") 1).toNat
    let endCursor := cursor + span
    match tc_pr.find (clark "tcW") with
    | none => (cell, endCursor, [])
    | some tc_w =>
      if widths.length < endCursor then (cell, endCursor, [])
      else if ¬ (tc_w.get (clark "type") = none ∨ tc_w.get (clark "type") = some ""
                 ∨ tc_w.get (clark "type") = some "dxa") then (cell, endCursor, [])
      else
        match safe_int (tc_w.get (clark "w")) with
        | none => (cell, endCursor, [])
        | some actual =>
          let expected := ((widths.drop cursor).take span).sum
          if expected ≤ 0 then (cell, endCursor, [])
          else if (tolNum : Int) * expected < 100 * ((actual - expected).natAbs : Int) then
            let newCell : Elem :=
              ⟨cell.tag, cell.attrs,
                replace_first (fun c => c.tag == clark "tcPr")
                  (fun tp => ⟨tp.tag, tp.attrs,
                    replace_first (fun c => c.tag == clark "tcW")
                      (fun tw => tw.setAttr (clark "w") (toString expected)) tp.children⟩)
                  cell.children⟩
            (newCell, endCursor, [(actual, expected)])
          else (cell, endCursor, [])

/-- The `for cell in row.findall(clark("tc"))` loop of `align_grid`:
walk the row's `tc` children left to right with the column cursor; children
with other tags are untouched and do not move the cursor. -/
def align_cells (tolNum : Nat) (widths : List Int) (cursor : Nat) :
    List Elem → List Elem × List (Int × Int)
  | [] => ([], [])
  | c :: cs =>
    if c.tag == clark "tc" then
      let r := align_cell tolNum widths cursor c
      let rest := align_cells tolNum widths r.2.1 cs
      (r.1 :: rest.1, r.2.2 ++ rest.2)
    else
      let rest := align_cells tolNum widths cursor cs
      (c :: rest.1, rest.2)

/-- The per-table body of `DocumentFixer.align_grid`: read the grid widths,
then process every direct `tr` child (cursor reset to 0 per row); a missing
or unparsable grid leaves the table untouched. -/
def align_table (tolNum : Nat) (tbl : Elem) : Elem × List (Int × Int) :=
  match grid_widths (tbl.find (clark "tblGrid")) with
  | none => (tbl, [])
  | some widths =>
    let step := fun (c : Elem) =>
      if c.tag == clark "tr" then
        let r := align_cells tolNum widths 0 c.children
        ((⟨c.tag, c.attrs, r.1⟩ : Elem), r.2)
      else (c, [])
    let rows := tbl.children.map step
    (⟨tbl.tag, tbl.attrs, rows.map Prod.fst⟩, (rows.map Prod.snd).flatten)

mutual
/-- The table iteration of `DocumentFixer.align_grid`: the source walks
`root.iter(clark("tbl"))` and skips every table that has a `tbl` ancestor
(`_iter_non_nested_tables`); the non-nested tables are exactly the first
`tbl` node on each root-to-leaf path, and processing a table only rewrites
its direct rows' cells, so the walk below (stop descending at the first
`tbl`) performs the same rewrites. -/
def align_walk (tolNum : Nat) : Elem → Elem × List (Int × Int)
  | ⟨t, a, cs⟩ =>
    if t == clark "tbl" then align_table tolNum ⟨t, a, cs⟩
    else
      let r := align_walk_list tolNum cs
      (⟨t, a, r.1⟩, r.2)
/-- Forest version of `align_walk`. -/
def align_walk_list (tolNum : Nat) : List Elem → List Elem × List (Int × Int)
  | [] => ([], [])
  | c :: cs =>
    let r := align_walk tolNum c
    let rest := align_walk_list tolNum cs
    (r.1 :: rest.1, r.2 ++ rest.2)
end

/-- Embeds `DocumentFixer.align_grid` (with the tolerance numerator as a
parameter; the source pass uses `tolNum = 4`): returns the rewritten tree,
the recorded `align-grid` events (one per flagged cell, in document order)
and the returned touched count. -/
def align_grid (tolNum : Nat) (root : Elem) : Elem × List RepairEvent × Nat :=
  let r := align_walk tolNum root
  (r.1,
   r.2.map (fun p =>
     ⟨"align-grid", "tcW", "adjusted width from " ++ toString p.1 ++ " to " ++ toString p.2, 1⟩),
   r.2.length)

/-- The per-node passes of `DocumentFixer.fix_all` (the loop body over
`root.iter()`): border-group wrap on `pPr` nodes, then the schema reorder
(only when a non-empty order is registered — Python tests `if order`), then
the body-tail normalisation on `body` nodes.  Returns the rewritten node
(children only), its recorded events in order, and its change count
contribution. -/
def fix_node (schema : String → Option (List String)) (e : Elem) :
    Elem × List RepairEvent × Nat :=
  let localTag := tag_name e.tag
  let s1 :=
    if localTag == "pPr" then
      let r := wrap_border_group schema e
      if 0 < r.1 then
        (r.2, [(⟨"wrap-border-group", localTag, "moved loose border leaves into pBdr", r.1⟩ : RepairEvent)], r.1)
      else (r.2, ([] : List RepairEvent), 0)
    else (e, ([] : List RepairEvent), 0)
  let s2 :=
    match schema localTag with
    | some order =>
      if order.isEmpty then (s1.1, ([] : List RepairEvent), 0)
      else
        let r := sort_by_spec s1.1.children order
        if r.1 then
          ((⟨s1.1.tag, s1.1.attrs, r.2⟩ : Elem),
           [(⟨"reorder-children", localTag, "reordered children to schema sequence", 1⟩ : RepairEvent)], 1)
        else (s1.1, ([] : List RepairEvent), 0)
    | none => (s1.1, ([] : List RepairEvent), 0)
  let s3 :=
    if localTag == "body" then
      let r := ensure_sectpr_last s2.1.children
      if r.1 then
        ((⟨s2.1.tag, s2.1.attrs, r.2⟩ : Elem),
         [(⟨"body-tail-normalize", localTag, "moved sectPr to trailing position", 1⟩ : RepairEvent)], 1)
      else (s2.1, ([] : List RepairEvent), 0)
    else (s2.1, ([] : List RepairEvent), 0)
  (s3.1, s1.2.1 ++ s2.2.1 ++ s3.2.1, s1.2.2 + s2.2.2 + s3.2.2)

/-- Apply a subtree-fixing function to every tree of a forest, concatenating
events and summing change counts in order (helper for `fix_all_go`). -/
def fix_forest (f : Elem → Elem × List RepairEvent × Nat) :
    List Elem → List Elem × List RepairEvent × Nat
  | [] => ([], [], 0)
  | c :: cs =>
    let r := f c
    let rest := fix_forest f cs
    (r.1 :: rest.1, r.2.1 ++ rest.2.1, r.2.2 + rest.2.2)

/-- The recursion of `DocumentFixer.fix_all` over `root.iter()`: the live
generator yields a node, the passes rewrite that node's child list, and the
iteration then descends into the (new) children in their new order, each
exactly once.  The passes never mutate any node other than the current one
and its (possibly fresh) `pBdr` child, so this recursion reproduces the
Python traversal.  `fuel` bounds the recursion depth (structural recursion
for the nested tree type); the wrapper `fix_all` supplies a fuel value
strictly larger than any reachable depth, so the `0` branch is never
taken. -/
def fix_all_go (schema : String → Option (List String)) : Nat → Elem → Elem × List RepairEvent × Nat
  | 0, e => (e, [], 0)
  | fuel + 1, e =>
    let r := fix_node schema e
    let rc := fix_forest (fix_all_go schema fuel) r.1.children
    (⟨r.1.tag, r.1.attrs, rc.1⟩, r.2.1 ++ rc.2.1, r.2.2 + rc.2.2)

/-- Embeds `DocumentFixer.fix_all` (with `clear_events` implicit: the event
list returned is exactly the trace of this run): apply the per-node passes
over the whole tree in document order and return the new tree, the events,
and the change count.  Each recursion level consumes one fuel unit and a
node of size `s` only ever recurses into children of measure strictly below
`2*s + 1` (the border-group pass can grow a subtree by at most the one
fresh `pBdr` node), so `2 * size + 2` fuel is never exhausted. -/
def fix_all (schema : String → Option (List String)) (root : Elem) :
    Elem × List RepairEvent × Nat :=
  fix_all_go schema (2 * root.size + 2) root

/-! Source file `check/report.py` — gravity, issues, report -/

/-- Embeds `Gravity`: severity classification of a finding. -/
inductive Gravity where
  | blocker | warning | hint
deriving DecidableEq, Repr

/-- Embeds `Issue`: one validation finding. -/
structure Issue where
  gravity : Gravity
  location : String
  summary : String
deriving DecidableEq, Repr

/-- Embeds `ValidationReport.has_blockers`. -/
def has_blockers (issues : List Issue) : Bool :=
  issues.any (fun i => i.gravity == Gravity.blocker)

/-! Source file `check/detectors.py` — scan context and detectors

The extracted package directory (`ScanContext(pkg_dir, report)`) is modelled
by `PackageDir`: the parses of the three files the detectors read (each
`none` when the file does not exist), the extraction-directory path (which
appears in exception messages), and the image-decoding collaborator
(`PIL.Image.open`, as a partial map from relationship target to pixel
dimensions — `none` covers both a missing file and an unreadable one, which
the source skips alike).  The lazy `cached_property` computation is pure
here, so caching is invisible.  A detector run is a `ScanResult`: the
issues appended to the shared report, and the exception that escaped the
scan, if any (every detector in scope appends nothing before its first
`document_root` access, so an escaped `FileNotFoundError` leaves exactly
the issues recorded before the throw — the model keeps both). -/

/-- A Python exception surfaced from a detector: class name and message. -/
structure Exc where
  ty : String
  msg : String
deriving DecidableEq, Repr

/-- Result of one `detector.scan(ctx)` call: issues appended, and the
exception that escaped, if any. -/
abbrev ScanResult := List Issue × Option Exc

/-- Model of the unpacked package directory seen by `ScanContext`. -/
structure PackageDir where
  dir : String
  document_xml : Option Elem
  comments_xml : Option Elem
  rels_xml : Option Elem
  image_dims : String → Option (Nat × Nat)

/-- Embeds `ScanContext.document_root`: raises `FileNotFoundError` when
`word/document.xml` is absent. -/
def document_root (pkg : PackageDir) : Except Exc Elem :=
  match pkg.document_xml with
  | none => .error ⟨"FileNotFoundError", "Missing document.xml in " ++ pkg.dir⟩
  | some root => .ok root

/-- Embeds `ScanContext.relationships`: `{}` when the `.rels` part is
absent, else the `Id → Target` dict over all `Relationship` descendants
with nonempty `Id` and `Target`. -/
def relationships (pkg : PackageDir) : List (String × String) :=
  match pkg.rels_xml with
  | none => []
  | some tree =>
    (tree.findallDesc (clarkNs nsPkgRel "Relationship")).foldl
      (fun m rel =>
        let rid := (rel.get "Id").getD ""
        let target := (rel.get "Target").getD ""
        if rid ≠ "" ∧ target ≠ "" then dict_insert m rid target else m)
      []

/-- Model of a Python `set` of strings built by iterating a list: membership
is order-independent; iteration order of a Python set is unspecified, so it
is fixed here to first-insertion order (every theorem below either uses a
singleton set or an order-independent consequence). -/
def set_of (l : List String) : List String :=
  l.foldl (fun acc s => if s ∈ acc then acc else acc ++ [s]) []

/-- The truthiness filter applied by the detectors to optional string
attributes (`if rs.get(...)`): present and nonempty. -/
def truthy (o : Option String) : Option String :=
  match o with
  | none => none
  | some s => if s = "" then none else some s

/-! `GridConsistencyDetector` -/

/-- The span computation of `GridConsistencyDetector.scan`: the `gridSpan`
`w:val`, when it is a truthy digit string (so a span attribute `"0"` really
contributes span 0), else 1. -/
def det_span (tc_pr : Elem) : Nat :=
  match tc_pr.find (clark "gridSpan") with
  | none => 1
  | some se =>
    match (truthy (se.get (clark "val"))).bind digit_nat with
    | some v => v
    | none => 1

/-- The cell loop of `GridConsistencyDetector.scan` for one row: walk the
row's `tc` elements with the column cursor, collecting the flagged
`(actual, expected)` pairs.  Unlike the repair pass this detector parses
widths and spans with `isdigit()`, performs no width-unit check, and lets a
span running past the grid clamp to the remaining columns (Python slicing).
The float tolerance `0.08` is modelled exactly by `100*|a-e| > 8*e` as for
`align_cell`. -/
def grid_scan_cells (widths : List Int) (cursor : Nat) : List Elem → List (Int × Int)
  | [] => []
  | tc :: rest =>
    match tc.find (clark "tcPr") with
    | none => grid_scan_cells widths (cursor + 1) rest
    | some tc_pr =>
      let span := det_span tc_pr
      let flags :=
        match tc_pr.find (clark "tcW") with
        | none => []
        | some tc_w =>
          match (truthy (tc_w.get (clark "w"))).bind digit_nat with
          | none => []
          | some a =>
            let actual : Int := a
            let expected : Int := ((widths.drop cursor).take span).sum
            if 0 < expected ∧ 8 * expected < 100 * ((actual - expected).natAbs : Int)
            then [(actual, expected)] else []
      flags ++ grid_scan_cells widths (cursor + span) rest

/-- The per-table part of `GridConsistencyDetector.scan`, returning the
flagged cells row by row (rows in order; a table without a grid, or whose
grid defines no digit-parsable width at all, contributes nothing). -/
def grid_table_row_flags (tbl : Elem) : List (List (Int × Int)) :=
  match tbl.find (clark "tblGrid") with
  | none => []
  | some grid =>
    let defined_widths : List Int :=
      (grid.findall (clark "gridCol")).filterMap
        (fun col => ((truthy (col.get (clark "w"))).bind digit_nat).map (fun n => (n : Int)))
    if defined_widths.isEmpty then []
    else (tbl.findall (clark "tr")).map
      (fun tr => grid_scan_cells defined_widths 0 (tr.findall (clark "tc")))

/-- Issues of `GridConsistencyDetector.scan` for the table at (1-based)
index `tblIdx`: one WARNING per flagged cell, located by table and row
index. -/
def grid_table_issues (tblIdx : Nat) (tbl : Elem) : List Issue :=
  ((grid_table_row_flags tbl).enumFrom 1).flatMap
    (fun row => row.2.map (fun p =>
      ⟨Gravity.warning,
       "table[" ++ toString tblIdx ++ "]/row[" ++ toString row.1 ++ "]",
       "Cell width " ++ toString p.1 ++ " deviates from grid sum " ++ toString p.2⟩))

/-- Embeds `GridConsistencyDetector.scan`: all `.//tbl` descendants
(1-based enumeration), flagged cells reported as WARNINGs. -/
def grid_consistency_scan (pkg : PackageDir) : ScanResult :=
  match document_root pkg with
  | .error e => ([], some e)
  | .ok root =>
    (((root.findallDesc (clark "tbl")).enumFrom 1).flatMap
       (fun p => grid_table_issues p.1 p.2), none)

/-! `AspectRatioDetector` -/

mutual
/-- Every proper descendant paired with its ancestor chain (nearest
ancestor first) — the derived form of `ScanContext.parent_map` walks used
by the aspect-ratio detector.  Preorder, like `findall(".//...")`. -/
def desc_with_anc : List Elem → Elem → List (Elem × List Elem)
  | anc, ⟨t, a, cs⟩ => desc_with_anc_list (⟨t, a, cs⟩ :: anc) cs
/-- Forest version of `desc_with_anc`. -/
def desc_with_anc_list : List Elem → List Elem → List (Elem × List Elem)
  | _, [] => []
  | anc, c :: cs => (c, anc) :: (desc_with_anc anc c ++ desc_with_anc_list anc cs)
end

/-- Render a nonnegative rational the way the f-string `:.2f` renders the
corresponding float: rounded to two decimals.  (Python rounds the nearest
double and breaks exact ties to even; ties and double-rounding edge cases
are not modelled — no theorem below inspects this text.) -/
def format2f (q : ℚ) : String :=
  let c : Int := ⌊q * 100 + 1/2⌋
  let whole := c / 100
  let frac := (c % 100).toNat
  toString whole ++ "." ++ (if frac < 10 then "0" else "") ++ toString frac

/-- The `for blip in drawings` loop of `AspectRatioDetector.scan`.  One
iteration skips (continues) on: falsy/unresolvable `embed` reference,
missing or unreadable image, zero image height, no `}extent`-suffixed
ancestor, falsy `cx`/`cy`, unparsable `cx`/`cy` or zero `cy`
(`ValueError`/`ZeroDivisionError` caught).  A zero image *width* makes the
uncaught tolerance comparison divide by zero: the scan aborts there,
keeping the issues already appended.  The float tolerance comparison is
modelled over ℚ. -/
def aspect_blips (pkg : PackageDir) (rels : List (String × String)) :
    List (Elem × List Elem) → ScanResult
  | [] => ([], none)
  | (blip, anc) :: rest =>
    let skip := aspect_blips pkg rels rest
    match truthy (blip.get (clarkNs nsR "embed")) with
    | none => skip
    | some embed =>
      match dict_get rels embed with
      | none => skip
      | some target =>
        match pkg.image_dims target with
        | none => skip
        | some dims =>
          if dims.2 = 0 then skip
          else
            match anc.find? (fun e => "\x7dextent".data.isSuffixOf e.tag.data) with
            | none => skip
            | some extent =>
              match truthy (extent.get "cx"), truthy (extent.get "cy") with
              | some cx, some cy =>
                match safe_int (some cx), safe_int (some cy) with
                | some icx, some icy =>
                  if icy = 0 then skip
                  else
                    let srcR : ℚ := (dims.1 : ℚ) / (dims.2 : ℚ)
                    let docR : ℚ := (icx : ℚ) / (icy : ℚ)
                    if dims.1 = 0 then ([], some ⟨"ZeroDivisionError", "float division by zero"⟩)
                    else if 3 / 100 < |srcR - docR| / srcR then
                      (⟨Gravity.warning, "image/" ++ embed,
                        "Aspect ratio changed from " ++ format2f srcR ++ " to " ++ format2f docR⟩
                        :: skip.1, skip.2)
                    else skip
                | _, _ => skip
              | _, _ => skip

/-- Embeds `AspectRatioDetector.scan`: returns nothing at all when PIL is
unavailable (the `ImportError` path, before any document access); otherwise
walks every `a:blip` descendant. -/
def aspect_scan (pil : Bool) (pkg : PackageDir) : ScanResult :=
  if ¬ pil then ([], none)
  else
    match document_root pkg with
    | .error e => ([], some e)
    | .ok root =>
      aspect_blips pkg (relationships pkg)
        ((desc_with_anc [] root).filter (fun p => p.1.tag == clarkNs nsA "blip"))

/-! `AnnotationLinkDetector` -/

/-- Embeds `AnnotationLinkDetector.scan`: every truthy
`commentRangeStart/@w:id` must resolve in `comments.xml`; a missing
comments part makes every reference a BLOCKER, otherwise each unresolved
reference is a BLOCKER. -/
def annotation_link_scan (pkg : PackageDir) : ScanResult :=
  match document_root pkg with
  | .error e => ([], some e)
  | .ok root =>
    let range_starts := root.findallDesc (clark "commentRangeStart")
    let referenced_ids := set_of (range_starts.filterMap (fun rs => truthy (rs.get (clark "id"))))
    if referenced_ids.isEmpty then ([], none)
    else
      match pkg.comments_xml with
      | none =>
        (referenced_ids.map (fun rid =>
          ⟨Gravity.blocker, "comment/" ++ rid,
           "Comment reference exists but comments.xml is missing"⟩), none)
      | some ctree =>
        let defined_ids := set_of
          ((ctree.findallDesc (clark "comment")).filterMap (fun c => truthy (c.get (clark "id"))))
        let orphans := referenced_ids.filter (fun rid => ¬ (rid ∈ defined_ids))
        (orphans.map (fun oid =>
          ⟨Gravity.blocker, "comment/" ++ oid,
           "Reference points to undefined comment entry"⟩), none)

/-! `BookmarkIntegrityDetector` -/

/-- Embeds `BookmarkIntegrityDetector.scan`: unmatched `bookmarkStart` /
`bookmarkEnd` ids are WARNINGs (set differences in both directions). -/
def bookmark_integrity_scan (pkg : PackageDir) : ScanResult :=
  match document_root pkg with
  | .error e => ([], some e)
  | .ok root =>
    let start_ids := set_of
      ((root.findallDesc (clark "bookmarkStart")).filterMap (fun s => truthy (s.get (clark "id"))))
    let end_ids := set_of
      ((root.findallDesc (clark "bookmarkEnd")).filterMap (fun s => truthy (s.get (clark "id"))))
    let orphan_starts := start_ids.filter (fun i => ¬ (i ∈ end_ids))
    let orphan_ends := end_ids.filter (fun i => ¬ (i ∈ start_ids))
    (orphan_starts.map (fun oid =>
       ⟨Gravity.warning, "bookmark/" ++ oid, "bookmarkStart has no matching bookmarkEnd"⟩)
     ++ orphan_ends.map (fun oid =>
       ⟨Gravity.warning, "bookmark/" ++ oid, "bookmarkEnd has no matching bookmarkStart"⟩), none)

/-! `DrawingIdUniquenessDetector` -/

/-- Count-occurrences insert into the `seen_ids` dict. -/
def dict_incr (m : List (String × Nat)) (k : String) : List (String × Nat) :=
  match dict_get m k with
  | some v => dict_insert m k (v + 1)
  | none => dict_insert m k 1

/-- Embeds `DrawingIdUniquenessDetector.scan`: duplicate `wp:docPr/@id`
values are WARNINGs with the duplicate count (dict iteration order =
insertion order, as in Python). -/
def drawing_id_scan (pkg : PackageDir) : ScanResult :=
  match document_root pkg with
  | .error e => ([], some e)
  | .ok root =>
    let seen_ids := (root.findallDesc (clarkNs nsWP "docPr")).foldl
      (fun m dp =>
        match truthy (dp.get "id") with
        | none => m
        | some v => dict_incr m v)
      []
    ((seen_ids.filter (fun p => 1 < p.2)).map (fun p =>
      ⟨Gravity.warning, "drawing/docPr[@id=" ++ p.1 ++ "]",
       "Duplicate drawing ID found " ++ toString p.2 ++ " times"⟩), none)

/-! `HyperlinkValidityDetector` -/

/-- Embeds `HyperlinkValidityDetector.scan`: a hyperlink with a truthy
`r:id` that does not resolve in the relationship map and has no internal
anchor is a WARNING. -/
def hyperlink_scan (pkg : PackageDir) : ScanResult :=
  match document_root pkg with
  | .error e => ([], some e)
  | .ok root =>
    ((root.findallDesc (clark "hyperlink")).filterMap (fun hl =>
      match truthy (hl.get (clarkNs nsR "id")) with
      | none => none
      | some rid =>
        if (dict_get (relationships pkg) rid).isSome then none
        else if (hl.get (clark "anchor")).getD "" = "" then
          some ⟨Gravity.warning, "hyperlink/" ++ rid, "Hyperlink references missing relationship"⟩
        else none), none)

/-! Source file `check/pipeline.py` — `ValidationPipeline` -/

/-- Input to `ValidationPipeline.run`: either an archive that
`zipfile.ZipFile` rejects (`BadZipFile`), or a successfully extracted
package directory. -/
inductive DocxPackage where
  | badZip
  | ok (dir : PackageDir)

/-- The WARNING the pipeline records when a detector raises. -/
def detector_failed_warning (name : String) (e : Exc) : Issue :=
  ⟨Gravity.warning, "detector/" ++ name, "Detector failed: " ++ e.ty ++ ": " ++ e.msg⟩

/-- Embeds `ValidationPipeline.standard()`: the six built-in detectors in
registration order (the aspect-ratio detector additionally depends on
whether PIL is importable). -/
def standard_detectors (pil : Bool) : List (String × (PackageDir → ScanResult)) :=
  [("grid-consistency", grid_consistency_scan),
   ("aspect-ratio", aspect_scan pil),
   ("annotation-links", annotation_link_scan),
   ("bookmark-integrity", bookmark_integrity_scan),
   ("drawing-id-uniqueness", drawing_id_scan),
   ("hyperlink-validity", hyperlink_scan)]

/-- Embeds `ValidationPipeline.run` for the standard pipeline: a bad zip
short-circuits to a single BLOCKER; otherwise every enabled detector runs
in registration order against the shared context, its appended issues are
kept, and an escaped exception is converted into a `detector/<name>`
WARNING without stopping the remaining detectors. -/
def pipeline_run (pil : Bool) (disabled : List String) (pkg : DocxPackage) : List Issue :=
  match pkg with
  | .badZip => [⟨Gravity.blocker, "archive", "File is not a valid ZIP archive"⟩]
  | .ok d =>
    (standard_detectors pil).foldl
      (fun report det =>
        if det.1 ∈ disabled then report
        else
          match det.2 d with
          | (issues, none) => report ++ issues
          | (issues, some e) => report ++ issues ++ [detector_failed_warning det.1 e])
      []

/-! Source file `packaging/opc.py` — content-type driven archive ordering -/

/-- Embeds `str.lstrip("/")`. -/
def lstrip_slash (s : String) : String := String.mk (s.data.dropWhile (fun c => c = '/'))

/-- Embeds `Path(p).suffix.lstrip(".").lower()`: the lowercased extension of
the final path component.  `pathlib` yields a suffix only when the final
component's last dot is neither its first nor its last character. -/
def path_ext (p : String) : String :=
  let name := (p.data.reverse.takeWhile (fun c => ¬ (c = '/'))).reverse
  let afterLast := (name.reverse.takeWhile (fun c => ¬ (c = '.'))).reverse
  if afterLast.length + 1 < name.length ∧ ¬ afterLast.isEmpty then
    String.mk (afterLast.map Char.toLower)
  else ""

/-- Embeds `ContentTypeManifest`: default extension mappings (lowercased
extensions) and per-part overrides (part names stored with leading slashes
stripped), as `_parse` builds them. -/
structure ContentTypeManifest where
  defaults : List (String × String)
  overrides : List (String × String)
deriving DecidableEq, Repr

/-- Embeds `ContentTypeManifest.get_content_type`: overrides win, then
defaults by extension, then `application/octet-stream`. -/
def get_content_type (m : ContentTypeManifest) (part_name : String) : String :=
  let normalized := lstrip_slash part_name
  match dict_get m.overrides normalized with
  | some ct => ct
  | none => (dict_get m.defaults (path_ext normalized)).getD "application/octet-stream"

/-- Embeds `OPCPartClassifier._CONTENT_TYPE_CATEGORIES`. -/
def CONTENT_TYPE_CATEGORIES : List (String × String) :=
  [("application/vnd.openxmlformats-package.relationships+xml", "relationships"),
   ("application/vnd.openxmlformats-package.core-properties+xml", "metadata"),
   ("application/vnd.openxmlformats-officedocument.extended-properties+xml", "metadata"),
   ("application/vnd.openxmlformats-officedocument.custom-properties+xml", "metadata"),
   ("application/vnd.openxmlformats-officedocument.wordprocessingml.document.main+xml", "main_document"),
   ("application/vnd.openxmlformats-officedocument.wordprocessingml.styles+xml", "definitions"),
   ("application/vnd.openxmlformats-officedocument.wordprocessingml.numbering+xml", "definitions"),
   ("application/vnd.openxmlformats-officedocument.wordprocessingml.settings+xml", "definitions"),
   ("application/vnd.openxmlformats-officedocument.wordprocessingml.fontTable+xml", "definitions"),
   ("application/vnd.openxmlformats-officedocument.wordprocessingml.webSettings+xml", "definitions"),
   ("application/vnd.openxmlformats-officedocument.theme+xml", "theming"),
   ("application/vnd.openxmlformats-officedocument.wordprocessingml.header+xml", "page_layout"),
   ("application/vnd.openxmlformats-officedocument.wordprocessingml.footer+xml", "page_layout"),
   ("application/vnd.openxmlformats-officedocument.wordprocessingml.comments+xml", "annotations"),
   ("application/vnd.openxmlformats-officedocument.wordprocessingml.footnotes+xml", "annotations"),
   ("application/vnd.openxmlformats-officedocument.wordprocessingml.endnotes+xml", "annotations"),
   ("image/png", "media"),
   ("image/jpeg", "media"),
   ("image/gif", "media"),
   ("image/tiff", "media"),
   ("image/x-emf", "media"),
   ("image/x-wmf", "media")]

/-- Embeds `OPCPartClassifier._CATEGORY_ORDER`. -/
def CATEGORY_ORDER : List (String × Nat) :=
  [("manifest", 0), ("relationships", 1), ("metadata", 2), ("main_document", 3),
   ("definitions", 4), ("theming", 5), ("page_layout", 6), ("annotations", 7),
   ("media", 8), ("unknown", 9)]

/-- Embeds `OPCPartClassifier.classify`: the `[Content_Types].xml` and
`.rels` path heuristics run before the content-type lookup. -/
def classify (m : ContentTypeManifest) (part_name : String) : String :=
  if part_name = "[Content_Types].xml" then "manifest"
  else if ".rels".data.isSuffixOf part_name.data then "relationships"
  else (dict_get CONTENT_TYPE_CATEGORIES (get_content_type m part_name)).getD "unknown"

/-- Embeds `OPCPartClassifier.sort_key`: `(category priority, relationship
nesting depth, path)`. -/
def opc_sort_key (m : ContentTypeManifest) (part_name : String) : Nat × Nat × String :=
  let category := classify m part_name
  let ord := (dict_get CATEGORY_ORDER category).getD 99
  let rel_depth := if category = "relationships"
    then (part_name.data.filter (fun c => c = '/')).length else 0
  (ord, rel_depth, part_name)

/-- Lexicographic comparison of sort keys — the order Python's tuple
comparison applies inside `sorted(..., key=...)`. -/
def opc_key_le (a b : Nat × Nat × String) : Prop :=
  a.1 < b.1 ∨ (a.1 = b.1 ∧ (a.2.1 < b.2.1 ∨ (a.2.1 = b.2.1 ∧ a.2.2 ≤ b.2.2)))

instance : DecidableRel opc_key_le := fun a b => by
  unfold opc_key_le; infer_instance

/-- The archive member order produced by `OPCPackager.repackage` (and
`create_package`) for a given set of part paths: sort by
`OPCPartClassifier.sort_key`.  Python's `sorted` is stable, but the part
paths of a file tree are pairwise distinct and the key's third component is
the path itself, so the key is injective and any sorting algorithm
(here insertion sort) produces the same, unique sorted permutation; the
filesystem enumeration order of `rglob` is therefore immaterial. -/
def repackage_order (m : ContentTypeManifest) (parts : List String) : List String :=
  List.insertionSort (fun a b => opc_key_le (opc_sort_key m a) (opc_sort_key m b)) parts

/-! Specification-side definitions (for refinement comparisons) -/

/-- Helper for `dedup_first`: drop every element already in `seen`, keep
first occurrences. -/
def dedup_first_aux (seen : List String) : List String → List String
  | [] => []
  | x :: xs => if x ∈ seen then dedup_first_aux seen xs else x :: dedup_first_aux (x :: seen) xs

/-- Specification-side definition, written from the spec's words for §4.1:
"concatenate remaining phases' elements, and deduplicate keeping first
occurrence".  Compared against the source's `_flatten_unique` in C3. -/
def dedup_first (l : List String) : List String := dedup_first_aux [] l

/-! Bridge definitions for C2 (detector vs. repair-pass width check) -/

/-- The flagged cells of the fixer's per-table grid pass, row by row: the
same data `align_table` computes, exposed per `tr` child (proved below to
flatten to `align_table`'s flag list). -/
def align_table_row_flags (tolNum : Nat) (tbl : Elem) : List (List (Int × Int)) :=
  match grid_widths (tbl.find (clark "tblGrid")) with
  | none => []
  | some widths =>
    (tbl.findall (clark "tr")).map (fun tr => (align_cells tolNum widths 0 tr.children).2)

/-- Part of the C2 benign-cell predicate: the `gridSpan` value, if present,
must make the detector's and the repair pass's span computations agree
(absent value, a positive digit string, or an unparsable/non-positive
string — only a digit string equal to zero, or an exotic parse such as a
`+`-signed literal, separates them). -/
def span_ok (tc_pr : Elem) : Bool :=
  match tc_pr.find (clark "gridSpan") with
  | none => true
  | some se =>
    match se.get (clark "val") with
    | none => true
    | some v =>
      match digit_nat v with
      | some n => decide (0 < n)
      | none =>
        match safe_int (some v) with
        | some k => decide (k ≤ 0)
        | none => true

/-- Part of the C2 benign-cell predicate for a cell carrying a `tcW`: the
span window stays inside the grid, the width unit is absent/empty/`dxa`,
and the width value is absent, a digit string, or unparsable either way. -/
def cell_ok (widths : List Int) (cursor : Nat) (tc_pr : Elem) : Bool :=
  match tc_pr.find (clark "tcW") with
  | none => true
  | some tc_w =>
    decide (cursor + det_span tc_pr ≤ widths.length)
    && decide (tc_w.get (clark "type") = none ∨ tc_w.get (clark "type") = some ""
               ∨ tc_w.get (clark "type") = some "dxa")
    && (match tc_w.get (clark "w") with
        | none => true
        | some wv => (digit_nat wv).isSome || (safe_int (some wv)).isNone)

/-- Benign-cell-walk predicate for C2: the conditions under which the
detector's cell walk and the repair pass's cell walk read the same numbers.
Outside these conditions the two procedures genuinely diverge (see the C2
counterexample). -/
def cells_ok (widths : List Int) : Nat → List Elem → Bool
  | _, [] => true
  | cursor, tc :: rest =>
    match tc.find (clark "tcPr") with
    | none => cells_ok widths (cursor + 1) rest
    | some tc_pr =>
      span_ok tc_pr && cell_ok widths cursor tc_pr
        && cells_ok widths (cursor + det_span tc_pr) rest

/-- Benign-table predicate for C2: every grid column width is a truthy
digit string, and every row's `tc` walk satisfies `cells_ok`. -/
def table_ok (tbl : Elem) : Bool :=
  match tbl.find (clark "tblGrid") with
  | none => true
  | some grid =>
    (grid.findall (clark "gridCol")).all
      (fun col => ((truthy (col.get (clark "w"))).bind digit_nat).isSome)
    && (let widths : List Int := (grid.findall (clark "gridCol")).filterMap
          (fun col => ((truthy (col.get (clark "w"))).bind digit_nat).map (fun n => (n : Int)))
        (tbl.findall (clark "tr")).all (fun tr => cells_ok widths 0 (tr.findall (clark "tc"))))

/-! Concrete inputs used by claim witnesses and counterexamples -/

/-- Parametric one-cell table for C6: a cell with a given `w:w` width
string, inside a table whose grid declares one column of a given width. -/
def c6_cell (w : String) : Elem :=
  ⟨clark "tc", [], [⟨clark "tcPr", [], [⟨clark "tcW", [(clark "w", w)], []⟩]⟩]⟩

/-- Parametric table for C6 (`gw` = grid-column width, `cw` = cell width). -/
def c6_table (gw cw : String) : Elem :=
  ⟨clark "tbl", [],
   [⟨clark "tblGrid", [], [⟨clark "gridCol", [(clark "w", gw)], []⟩]⟩,
    ⟨clark "tr", [], [c6_cell cw]⟩]⟩

/-- The C5 failing input: a `body` whose children are a paragraph, an
element unrecognized by the `body` order (`foo`), and a `sectPr`. -/
def c5_body : Elem :=
  ⟨clark "body", [], [⟨clark "p", [], []⟩, ⟨clark "foo", [], []⟩, ⟨clark "sectPr", [], []⟩]⟩

/-- Seen-set state after scanning a list (helper for C3). -/
def seen_after (seen : List String) : List String → List String
  | [] => seen
  | x :: xs => seen_after (if x ∈ seen then seen else x :: seen) xs

/-- The C1 counterexample package: extracted fine (so not a bad zip), but
with no `word/document.xml` (and no comments or rels parts, image decoding
unavailable). -/
def c1_pkg : PackageDir := ⟨"tmp/unpacked", none, none, none, fun _ => none⟩

/-- The C8 witness document: one `commentRangeStart` with id 5. -/
def c8_crs : Elem := ⟨clark "commentRangeStart", [(clark "id", "5")], []⟩

/-- The C8 witness main part. -/
def c8_doc : Elem := ⟨clark "document", [], [c8_crs]⟩

/-- The C8 witness comments part defining comment id 5. -/
def c8_comment : Elem := ⟨clark "comment", [(clark "id", "5")], []⟩

/-- The effective rank `sort_by_spec` assigns to a child. -/
def rank_of (spec_order : List String) (c : Elem) : Nat :=
  (dict_get (make_rank_index spec_order) (tag_name c.tag)).getD spec_order.length

/-- A benign C2 witness table: two 1000-wide grid columns, one row with a
cell at width 1030 (3% drift, unflagged) and a cell at width 2000 (100%
drift, flagged by both procedures). -/
def c2_good_tbl : Elem :=
  ⟨clark "tbl", [], [
    ⟨clark "tblGrid", [], [
      ⟨clark "gridCol", [(clark "w", "1000")], []⟩,
      ⟨clark "gridCol", [(clark "w", "1000")], []⟩]⟩,
    ⟨clark "tr", [], [
      ⟨clark "tc", [], [⟨clark "tcPr", [], [
        ⟨clark "tcW", [(clark "w", "1030")], []⟩]⟩]⟩,
      ⟨clark "tc", [], [⟨clark "tcPr", [], [
        ⟨clark "tcW", [(clark "w", "2000")], []⟩]⟩]⟩]⟩]⟩

/-- The C2 counterexample table: a single 1000-wide column and a single
cell whose `tcW` declares width 2000 in `pct` units. -/
def c2_pct_tbl : Elem :=
  ⟨clark "tbl", [], [
    ⟨clark "tblGrid", [], [⟨clark "gridCol", [(clark "w", "1000")], []⟩]⟩,
    ⟨clark "tr", [], [⟨clark "tc", [], [⟨clark "tcPr", [], [
      ⟨clark "tcW", [(clark "w", "2000"), (clark "type", "pct")], []⟩]⟩]⟩]⟩]⟩

/-! Claim theorems -/

/-- C10: for every profile string not among the four registered profiles,
`get_child_order`/`build_sequence` silently fall back to the `repair`
profile's level set (never raising, and never returning `None` for a
registered container), whereas constructing `LayeredSchemaProvider` with
the same unknown profile raises `ValueError`. -/
theorem c10_unknown_profile_fallback :
    ∀ profile : String, (PROFILE_LEVELS.find? (fun p => p.1 == profile)) = none →
      levels_for_profile profile = levels_for_profile "repair"
      ∧ (∀ container, get_child_order container profile = get_child_order container "repair")
      ∧ (∀ container, (ORDER_BOOK.find? (fun p => p.1 == container)).isSome = true →
          (get_child_order container profile).isSome = true)
      ∧ mkLayeredSchemaProvider profile = .error ("unknown profile: " ++ profile) := by
  intro profile h
  have hlev : levels_for_profile profile = levels_for_profile "repair" := by
    simp only [levels_for_profile, h, DEFAULT_PROFILE]
    rfl
  refine ⟨hlev, ?_, ?_, ?_⟩
  · intro container
    unfold get_child_order
    cases hfind : ORDER_BOOK.find? (fun p => p.1 == container) with
    | none => simp
    | some co => simp [ContainerOrder.build_sequence, hlev]
  · intro container hcont
    unfold get_child_order
    cases hfind : ORDER_BOOK.find? (fun p => p.1 == container) with
    | none => rw [hfind] at hcont; simp at hcont
    | some co => simp
  · simp [mkLayeredSchemaProvider, h]

/-- Witness for C10 at the concrete unknown profile `"bogus"`. -/
theorem c10_unknown_profile_fallback_witness :
    levels_for_profile "bogus" = levels_for_profile "repair"
    ∧ get_child_order "body" "bogus" = get_child_order "body" "repair"
    ∧ (get_child_order "body" "bogus").isSome = true
    ∧ mkLayeredSchemaProvider "bogus" = .error ("unknown profile: " ++ "bogus") := by
  have h := c10_unknown_profile_fallback "bogus" (by decide)
  exact ⟨h.1, h.2.1 "body", h.2.2.1 "body" (by decide), h.2.2.2⟩

/-- C6: in the grid-alignment pass, an eligible cell with parseable width
`a` and positive expected grid sum `e` whose relative drift is exactly 0.04
(`100·|a−e| = 4·e`) is not modified and emits no event (strict `>`
comparator), while a width one unit beyond that boundary
(`|a−e| = e/25 + 1`) is overwritten with the expected value and emits one
event. -/
theorem c6_drift_tolerance_boundary :
    ∀ (se sa : String) (e a : Int),
      safe_int (some se) = some e → safe_int (some sa) = some a → 0 < e →
      (100 * (((a - e).natAbs : Int)) = 4 * e →
        align_grid 4 (c6_table se sa) = (c6_table se sa, [], 0))
      ∧ (100 * (((a - e).natAbs : Int)) = 4 * e + 100 →
        align_grid 4 (c6_table se sa)
          = (c6_table se (toString e),
             [⟨"align-grid", "tcW", "adjusted width from " ++ toString a ++ " to " ++ toString e, 1⟩], 1)) := by
  intro se sa e a hse hsa he
  have hne : ¬ (e ≤ 0) := not_le.mpr he
  constructor
  · intro hb
    have hnot : ¬ ((4:Int) * e < 100 * |a - e|) := by
      rw [Int.abs_eq_natAbs]; omega
    simp [align_grid, align_walk, align_table, c6_table, c6_cell, align_walk_list,
          grid_widths, grid_widths_go, Elem.findall, Elem.find, Elem.get, hse, hsa,
          clark, clarkNs, nsW, align_cells, align_cell, node_int, hnot, hne]
  · intro hb
    have hyes : ((4:Int) * e < 100 * |a - e|) := by
      rw [Int.abs_eq_natAbs]; omega
    simp [align_grid, align_walk, align_table, c6_table, c6_cell, align_walk_list,
          grid_widths, grid_widths_go, Elem.findall, Elem.find, Elem.get, hse, hsa,
          clark, clarkNs, nsW, align_cells, align_cell, node_int, hyes, hne,
          Elem.setAttr, replace_first]

/-- Witness for C6 at `e = 100`: width `104` (drift exactly 4%) untouched,
width `105` (one unit beyond) rewritten to `100` with one event. -/
theorem c6_drift_tolerance_boundary_witness :
    align_grid 4 (c6_table "100" "104") = (c6_table "100" "104", [], 0)
    ∧ align_grid 4 (c6_table "100" "105")
        = (c6_table "100" (toString (100 : Int)),
           [⟨"align-grid", "tcW",
             "adjusted width from " ++ toString (105 : Int) ++ " to " ++ toString (100 : Int), 1⟩], 1) := by
  constructor
  · exact (c6_drift_tolerance_boundary "100" "104" 100 104 (by decide) (by decide) (by decide)).1
      (by decide)
  · exact (c6_drift_tolerance_boundary "100" "105" 100 105 (by decide) (by decide) (by decide)).2
      (by decide)

/-- C5 (refuting the idempotence claim): on `c5_body`, `fix_all` under the
default `repair` schema provider returns the *unchanged* tree while
recording two events (the reorder pass moves `sectPr` before the
unrecognized child, the body-tail pass moves it back), so a second
`fix_all` call performs exactly the same two repairs again — the claimed
zero-event second run is violated forever. -/
theorem c5_fix_all_not_idempotent :
    (fix_all repair_schema c5_body).1 = c5_body
    ∧ (fix_all repair_schema c5_body).2.1 =
        [⟨"reorder-children", "body", "reordered children to schema sequence", 1⟩,
         ⟨"body-tail-normalize", "body", "moved sectPr to trailing position", 1⟩]
    ∧ (fix_all repair_schema c5_body).2.2 = 2
    ∧ fix_all repair_schema (fix_all repair_schema c5_body).1 = fix_all repair_schema c5_body := by
  exact ⟨rfl, by decide, by decide, rfl⟩

theorem flatten_inner (part : List String) : ∀ (acc seen : List String),
    part.foldl (fun st element => if element ∈ st.2 then st else (st.1 ++ [element], element :: st.2)) (acc, seen)
      = (acc ++ dedup_first_aux seen part, seen_after seen part) := by
  induction part with
  | nil => intro acc seen; simp [dedup_first_aux, seen_after]
  | cons x xs ih =>
    intro acc seen
    by_cases hx : x ∈ seen
    · simp [List.foldl_cons, hx, dedup_first_aux, seen_after, ih]
    · simp [List.foldl_cons, hx, dedup_first_aux, seen_after, ih]

theorem seen_after_append : ∀ (l1 l2 seen : List String),
    seen_after seen (l1 ++ l2) = seen_after (seen_after seen l1) l2 := by
  intro l1
  induction l1 with
  | nil => intro l2 seen; simp [seen_after]
  | cons x xs ih => intro l2 seen; simp [seen_after, ih]

theorem dedup_aux_append : ∀ (l1 l2 seen : List String),
    dedup_first_aux seen (l1 ++ l2)
      = dedup_first_aux seen l1 ++ dedup_first_aux (seen_after seen l1) l2 := by
  intro l1
  induction l1 with
  | nil => intro l2 seen; simp [dedup_first_aux, seen_after]
  | cons x xs ih =>
    intro l2 seen
    by_cases hx : x ∈ seen
    · simp [dedup_first_aux, seen_after, hx, ih]
    · simp [dedup_first_aux, seen_after, hx, ih]

theorem flatten_unique_eq_dedup (parts : List (List String)) :
    flatten_unique parts = dedup_first parts.flatten := by
  suffices h : ∀ (acc seen : List String),
      parts.foldl
        (fun st part => part.foldl
          (fun st element => if element ∈ st.2 then st else (st.1 ++ [element], element :: st.2)) st)
        (acc, seen)
        = (acc ++ dedup_first_aux seen parts.flatten, seen_after seen parts.flatten) by
    unfold flatten_unique dedup_first
    rw [h]
    simp
  induction parts with
  | nil => intro acc seen; simp [dedup_first_aux, seen_after]
  | cons part rest ih =>
    intro acc seen
    simp only [List.foldl_cons, flatten_inner, List.flatten_cons]
    rw [ih, dedup_aux_append, seen_after_append]
    simp [List.append_assoc]

theorem dedup_aux_nodup : ∀ (l seen : List String),
    (dedup_first_aux seen l).Nodup ∧ ∀ x ∈ dedup_first_aux seen l, x ∉ seen := by
  intro l
  induction l with
  | nil => intro seen; simp [dedup_first_aux]
  | cons x xs ih =>
    intro seen
    by_cases hx : x ∈ seen
    · simpa [dedup_first_aux, hx] using ih seen
    · have h2 := ih (x :: seen)
      refine ⟨?_, ?_⟩
      · simp only [dedup_first_aux, if_neg hx, List.nodup_cons]
        exact ⟨fun hmem => (h2.2 x hmem) (List.mem_cons_self x seen), h2.1⟩
      · intro y hy
        simp only [dedup_first_aux, if_neg hx, List.mem_cons] at hy
        rcases hy with rfl | hy
        · exact hx
        · intro hseen
          exact (h2.2 y hy) (List.mem_cons_of_mem x hseen)

theorem dedup_first_nodup (l : List String) : (dedup_first l).Nodup :=
  (dedup_aux_nodup l []).1

/-- C3: for every registered container and every profile, `build_sequence`
equals the concatenation, in table-declared phase order, of the elements of
exactly those phases whose level is in the profile's level set, with
duplicates removed keeping the first occurrence (the spec-side
`dedup_first` of the flattened phase elements); consequently the result
contains no duplicate names; and for an unregistered container
`get_child_order` returns `none`. -/
theorem c3_build_sequence_layering :
    (∀ container co, ORDER_BOOK.find? (fun p => p.1 == container) = some co →
       ∀ profile : String,
         co.2.build_sequence profile
           = dedup_first (((co.2.phases.filter (fun ph => ph.level ∈ levels_for_profile profile)).map
               (fun ph => ph.elements)).flatten)
         ∧ (co.2.build_sequence profile).Nodup)
    ∧ (∀ container profile : String, ORDER_BOOK.find? (fun p => p.1 == container) = none →
        get_child_order container profile = none) := by
  constructor
  · intro container co _ profile
    refine ⟨?_, ?_⟩
    · unfold ContainerOrder.build_sequence
      exact flatten_unique_eq_dedup _
    · unfold ContainerOrder.build_sequence
      rw [flatten_unique_eq_dedup]
      exact dedup_first_nodup _
  · intro container profile h
    unfold get_child_order
    rw [h]

/-- Witness for C3 at the registered container `pBdr` (profile `repair`)
and the unregistered container `zzz`. -/
theorem c3_build_sequence_layering_witness :
    ((ContainerOrder.mk "pBdr" [phaseOf .must "must-border-loop" ["top", "left", "bottom", "right", "between", "bar"]]).build_sequence "repair"
       = dedup_first ((((ContainerOrder.mk "pBdr" [phaseOf .must "must-border-loop" ["top", "left", "bottom", "right", "between", "bar"]]).phases.filter
             (fun ph => ph.level ∈ levels_for_profile "repair")).map (fun ph => ph.elements)).flatten)
       ∧ ((ContainerOrder.mk "pBdr" [phaseOf .must "must-border-loop" ["top", "left", "bottom", "right", "between", "bar"]]).build_sequence "repair").Nodup)
    ∧ get_child_order "zzz" "repair" = none := by
  have h := c3_build_sequence_layering
  exact ⟨h.1 "pBdr" ("pBdr", ContainerOrder.mk "pBdr" [phaseOf .must "must-border-loop" ["top", "left", "bottom", "right", "between", "bar"]]) rfl "repair",
         h.2 "zzz" "repair" (by decide)⟩

/-- C9: repackaging a source tree containing exactly the parts
`media/img1.png`, `word/document.xml`, `word/_rels/document.xml.rels` and
`[Content_Types].xml` (under a manifest that assigns the two content-typed
parts their standard types) writes the archive members in the order:
manifest part, relationships part, main document part, media part.  The
path-suffix heuristics classify `[Content_Types].xml` and `.rels` ahead of
the content-type lookup, and the category priorities satisfy
manifest < relationships < main-document < media (the sort keys are listed
explicitly). -/
theorem c9_repackage_order :
    ∀ m : ContentTypeManifest,
      get_content_type m "word/document.xml"
        = "application/vnd.openxmlformats-officedocument.wordprocessingml.document.main+xml" →
      get_content_type m "media/img1.png" = "image/png" →
      repackage_order m
          ["media/img1.png", "word/document.xml", "word/_rels/document.xml.rels", "[Content_Types].xml"]
        = ["[Content_Types].xml", "word/_rels/document.xml.rels", "word/document.xml", "media/img1.png"]
      ∧ classify m "[Content_Types].xml" = "manifest"
      ∧ classify m "word/_rels/document.xml.rels" = "relationships"
      ∧ opc_sort_key m "[Content_Types].xml" = (0, 0, "[Content_Types].xml")
      ∧ opc_sort_key m "word/_rels/document.xml.rels" = (1, 2, "word/_rels/document.xml.rels")
      ∧ opc_sort_key m "word/document.xml" = (3, 0, "word/document.xml")
      ∧ opc_sort_key m "media/img1.png" = (8, 0, "media/img1.png") := by
  intro m hdoc hpng
  have hcdoc : classify m "word/document.xml" = "main_document" := by
    unfold classify
    rw [if_neg (by decide), if_neg (by decide), hdoc]
    decide
  have hcpng : classify m "media/img1.png" = "media" := by
    unfold classify
    rw [if_neg (by decide), if_neg (by decide), hpng]
    decide
  have hct : classify m "[Content_Types].xml" = "manifest" := by
    unfold classify
    rw [if_pos (by decide)]
  have hrels : classify m "word/_rels/document.xml.rels" = "relationships" := by
    unfold classify
    rw [if_neg (by decide), if_pos (by decide)]
  have k1 : opc_sort_key m "[Content_Types].xml" = (0, 0, "[Content_Types].xml") := by
    simp only [opc_sort_key, hct]
    decide
  have k2 : opc_sort_key m "word/_rels/document.xml.rels" = (1, 2, "word/_rels/document.xml.rels") := by
    simp only [opc_sort_key, hrels]
    decide
  have k3 : opc_sort_key m "word/document.xml" = (3, 0, "word/document.xml") := by
    simp only [opc_sort_key, hcdoc]
    decide
  have k4 : opc_sort_key m "media/img1.png" = (8, 0, "media/img1.png") := by
    simp only [opc_sort_key, hcpng]
    decide
  refine ⟨?_, hct, hrels, k1, k2, k3, k4⟩
  simp +decide [repackage_order, List.insertionSort, List.orderedInsert, k1, k2, k3, k4, opc_key_le]

/-- Witness for C9: a concrete manifest with the standard `png` default and
the standard `document.xml` override. -/
theorem c9_repackage_order_witness :
    repackage_order
        ⟨[("png", "image/png")],
         [("word/document.xml",
           "application/vnd.openxmlformats-officedocument.wordprocessingml.document.main+xml")]⟩
        ["media/img1.png", "word/document.xml", "word/_rels/document.xml.rels", "[Content_Types].xml"]
      = ["[Content_Types].xml", "word/_rels/document.xml.rels", "word/document.xml", "media/img1.png"] :=
  (c9_repackage_order
    ⟨[("png", "image/png")],
     [("word/document.xml",
       "application/vnd.openxmlformats-officedocument.wordprocessingml.document.main+xml")]⟩
    (by decide) (by decide)).1

/-- Counterexample to C1 as stated: for a package whose main document part
is absent, `ValidationPipeline.run` does *not* return a single-BLOCKER
report with all detectors skipped — every enabled detector runs, fails on
`ScanContext.document_root`, and is converted into a `detector/<name>`
WARNING, giving five WARNINGs and zero BLOCKERs with the standard pipeline
(image decoding unavailable). -/
theorem c1_counterexample_missing_main_part :
    pipeline_run false [] (DocxPackage.ok c1_pkg)
      = ["grid-consistency", "annotation-links", "bookmark-integrity",
         "drawing-id-uniqueness", "hyperlink-validity"].map
          (fun n => detector_failed_warning n
            ⟨"FileNotFoundError", "Missing document.xml in tmp/unpacked"⟩)
    ∧ has_blockers (pipeline_run false [] (DocxPackage.ok c1_pkg)) = false
    ∧ (pipeline_run false [] (DocxPackage.ok c1_pkg)).length = 5 := by
  refine ⟨by decide, by decide, by decide⟩

/-- C1 as amended: an archive that is not a valid zip short-circuits the
run to a report with exactly one BLOCKER and no detector executed; but a
missing main document part does not short-circuit: each enabled detector's
`FileNotFoundError` is caught individually and recorded as a WARNING naming
the detector (six with image decoding available, five without), and the
report contains no BLOCKER. -/
theorem c1_structural_failures :
    ∀ (pil : Bool) (d : PackageDir), d.document_xml = none →
      pipeline_run pil [] DocxPackage.badZip
        = [⟨Gravity.blocker, "archive", "File is not a valid ZIP archive"⟩]
      ∧ pipeline_run pil [] (DocxPackage.ok d)
          = ((if pil then
               ["grid-consistency", "aspect-ratio", "annotation-links", "bookmark-integrity",
                "drawing-id-uniqueness", "hyperlink-validity"]
              else
               ["grid-consistency", "annotation-links", "bookmark-integrity",
                "drawing-id-uniqueness", "hyperlink-validity"]).map
            (fun n => detector_failed_warning n
              ⟨"FileNotFoundError", "Missing document.xml in " ++ d.dir⟩))
      ∧ has_blockers (pipeline_run pil [] (DocxPackage.ok d)) = false := by
  intro pil d h
  have hdoc : document_root d = .error ⟨"FileNotFoundError", "Missing document.xml in " ++ d.dir⟩ := by
    simp [document_root, h]
  refine ⟨rfl, ?_, ?_⟩ <;> cases pil <;>
    simp [pipeline_run, standard_detectors, grid_consistency_scan, aspect_scan,
          annotation_link_scan, bookmark_integrity_scan, drawing_id_scan, hyperlink_scan,
          hdoc, detector_failed_warning, has_blockers]

/-- Witness for the amended C1 at a concrete package (image decoding
available). -/
theorem c1_structural_failures_witness :
    pipeline_run true [] DocxPackage.badZip
      = [⟨Gravity.blocker, "archive", "File is not a valid ZIP archive"⟩]
    ∧ pipeline_run true [] (DocxPackage.ok c1_pkg)
        = ((if true then
             ["grid-consistency", "aspect-ratio", "annotation-links", "bookmark-integrity",
              "drawing-id-uniqueness", "hyperlink-validity"]
            else
             ["grid-consistency", "annotation-links", "bookmark-integrity",
              "drawing-id-uniqueness", "hyperlink-validity"]).map
          (fun n => detector_failed_warning n
            ⟨"FileNotFoundError", "Missing document.xml in " ++ c1_pkg.dir⟩))
    ∧ has_blockers (pipeline_run true [] (DocxPackage.ok c1_pkg)) = false :=
  c1_structural_failures true c1_pkg rfl

/-- Membership in the Python-set model is membership in the underlying
list (helper). -/
theorem mem_set_of {x : String} : ∀ {l : List String}, x ∈ set_of l ↔ x ∈ l := by
  suffices h : ∀ (l acc : List String),
      x ∈ l.foldl (fun acc s => if s ∈ acc then acc else acc ++ [s]) acc ↔ x ∈ acc ∨ x ∈ l by
    intro l
    simpa [set_of] using h l []
  intro l
  induction l with
  | nil => intro acc; simp
  | cons y ys ih =>
    intro acc
    by_cases hy : y ∈ acc
    · rw [List.foldl_cons, if_pos hy, ih]
      constructor
      · rintro (h | h)
        · exact Or.inl h
        · exact Or.inr (List.mem_cons_of_mem y h)
      · rintro (h | h)
        · exact Or.inl h
        · rcases List.mem_cons.mp h with rfl | h
          · exact Or.inl hy
          · exact Or.inr h
    · rw [List.foldl_cons, if_neg hy, ih]
      simp [List.mem_append, List.mem_cons, or_assoc, or_comm, or_left_comm]

/-- C8: for every document whose main part contains exactly one
`commentRangeStart`, with id `"5"`: if the comments part is absent, the
annotation-links detector appends exactly one BLOCKER Issue whose location
references id `"5"`; if the comments part exists and defines a comment with
id `"5"`, the detector appends zero Issues. -/
theorem c8_annotation_links :
    ∀ (d : PackageDir) (root el : Elem),
      d.document_xml = some root →
      root.findallDesc (clark "commentRangeStart") = [el] →
      el.get (clark "id") = some "5" →
      (d.comments_xml = none →
        annotation_link_scan d
          = ([⟨Gravity.blocker, "comment/5", "Comment reference exists but comments.xml is missing"⟩], none))
      ∧ (∀ ctree cel, d.comments_xml = some ctree →
          cel ∈ ctree.findallDesc (clark "comment") →
          cel.get (clark "id") = some "5" →
          annotation_link_scan d = ([], none)) := by
  intro d root el hdoc hcrs hid
  have hdr : document_root d = .ok root := by simp [document_root, hdoc]
  have hrefs : set_of ((root.findallDesc (clark "commentRangeStart")).filterMap
      (fun rs => truthy (rs.get (clark "id")))) = ["5"] := by
    rw [hcrs]
    simp [set_of, truthy, hid]
  constructor
  · intro hnone
    simp [annotation_link_scan, hdr, hrefs, hnone]
  · intro ctree cel hcm hmem hcid
    have h5 : "5" ∈ set_of ((ctree.findallDesc (clark "comment")).filterMap
        (fun c => truthy (c.get (clark "id")))) := by
      rw [mem_set_of]
      exact List.mem_filterMap.mpr ⟨cel, hmem, by simp [truthy, hcid]⟩
    simp [annotation_link_scan, hdr, hrefs, hcm, h5]

/-- Witness for C8: the concrete document without and with a comments part
defining id 5. -/
theorem c8_annotation_links_witness :
    annotation_link_scan ⟨"T", some c8_doc, none, none, fun _ => none⟩
      = ([⟨Gravity.blocker, "comment/5", "Comment reference exists but comments.xml is missing"⟩], none)
    ∧ annotation_link_scan
        ⟨"T", some c8_doc, some ⟨clark "comments", [], [c8_comment]⟩, none, fun _ => none⟩
      = ([], none) := by
  constructor
  · exact (c8_annotation_links ⟨"T", some c8_doc, none, none, fun _ => none⟩ c8_doc c8_crs
      rfl rfl rfl).1 rfl
  · exact (c8_annotation_links
      ⟨"T", some c8_doc, some ⟨clark "comments", [], [c8_comment]⟩, none, fun _ => none⟩
      c8_doc c8_crs rfl rfl rfl).2 ⟨clark "comments", [], [c8_comment]⟩ c8_comment rfl
      (List.mem_cons_self _ _) rfl

/-- Filtering enumerated pairs by a predicate on the element and projecting
back is plain filtering (helper). -/
theorem enum_filter_map_snd (pred : Elem → Bool) :
    ∀ (l : List Elem) (k : Nat),
      ((l.enumFrom k).filter (fun p => pred p.2)).map Prod.snd = l.filter pred := by
  intro l
  induction l with
  | nil => intro k; simp
  | cons x xs ih =>
    intro k
    by_cases hx : pred x
    · simp [List.enumFrom, List.filter_cons, hx, ih]
    · simp [List.enumFrom, List.filter_cons, hx, ih]

/-- An enumerated pair's element belongs to the underlying list (helper). -/
theorem snd_mem_of_mem_enumFrom {p : Nat × Elem} :
    ∀ {l : List Elem} {k : Nat}, p ∈ l.enumFrom k → p.2 ∈ l := by
  intro l
  induction l with
  | nil => intro k h; simp [List.enumFrom] at h
  | cons x xs ih =>
    intro k h
    rcases List.mem_cons.mp h with rfl | h
    · exact List.mem_cons_self _ _
    · exact List.mem_cons_of_mem _ (ih h)

/-- A fruitless `find?` lifts to the enumerated list (helper). -/
theorem enum_find_none (pred : Elem → Bool) :
    ∀ (l : List Elem) (k : Nat), l.find? pred = none →
      (l.enumFrom k).find? (fun p => pred p.2) = none := by
  intro l k h
  rw [List.find?_eq_none] at h ⊢
  intro p hp
  exact h p.2 (snd_mem_of_mem_enumFrom hp)

/-- Children kept by `wrap_border_group`'s rebuild (any index-window
condition `cond`, excluding the loose indices) are original children that
are not border leaves (helper for C7). -/
theorem filtered_enum_no_border (cs : List Elem) (cond : Nat → Prop) [DecidablePred cond] :
    ∀ c : Elem,
      c ∈ (cs.enum.filter (fun p => decide (cond p.1
            ∧ p.1 ∉ (cs.enum.filter
                (fun p => decide (tag_name p.2.tag ∈ BORDER_LEAVES))).map Prod.fst))).map Prod.snd →
      c ∈ cs ∧ (decide (tag_name c.tag ∈ BORDER_LEAVES)) = false := by
  intro c hc
  rcases List.mem_map.mp hc with ⟨p, hp, rfl⟩
  rcases List.mem_filter.mp hp with ⟨hpe, hpc⟩
  have hnotin : p.1 ∉ (cs.enum.filter
      (fun p => decide (tag_name p.2.tag ∈ BORDER_LEAVES))).map Prod.fst :=
    (of_decide_eq_true hpc).2
  refine ⟨snd_mem_of_mem_enumFrom hpe, ?_⟩
  by_contra hb
  rw [Bool.not_eq_false, decide_eq_true_iff] at hb
  exact hnotin (List.mem_map.mpr ⟨p, List.mem_filter.mpr ⟨hpe, by simpa using hb⟩, rfl⟩)

/-- C7: for every `pPr` node whose loose border-leaf children are exactly
one `top` and one `left` (in that order) and that has no existing `pBdr`
child, one `wrap_border_group` pass moves 2 leaves, produces exactly one
`pBdr` child containing exactly those two leaves (inserted at the
`insert_slot_index` schema slot of `pPr`), and a second pass returns 0 and
leaves the node unchanged. -/
theorem c7_border_grouping :
    ∀ (ppr t l : Elem),
      tag_name t.tag = "top" → tag_name l.tag = "left" →
      ppr.children.filter (fun n => tag_name n.tag ∈ BORDER_LEAVES) = [t, l] →
      ppr.find (clark "pBdr") = none →
      (wrap_border_group repair_schema ppr).1 = 2
      ∧ ((wrap_border_group repair_schema ppr).2.children.filter
          (fun c => c.tag == clark "pBdr")) = [(⟨clark "pBdr", [], [t, l]⟩ : Elem)]
      ∧ wrap_border_group repair_schema (wrap_border_group repair_schema ppr).2
          = (0, (wrap_border_group repair_schema ppr).2) := by
  intro ppr t l ht hl hfilter hfind
  have hmap : ((ppr.children.enum.filter
      (fun p => tag_name p.2.tag ∈ BORDER_LEAVES)).map Prod.snd) = [t, l] := by
    rw [show ppr.children.enum = ppr.children.enumFrom 0 from rfl,
        enum_filter_map_snd (fun n => decide (tag_name n.tag ∈ BORDER_LEAVES))]
    exact hfilter
  have hne : (ppr.children.enum.filter
      (fun p => tag_name p.2.tag ∈ BORDER_LEAVES)).isEmpty = false := by
    cases hE : (ppr.children.enum.filter (fun p => tag_name p.2.tag ∈ BORDER_LEAVES)) with
    | nil => rw [hE] at hmap; simp at hmap
    | cons a rest => simp
  have hfind2 : (ppr.children.enum.find? (fun p => p.2.tag == clark "pBdr")) = none := by
    rw [show ppr.children.enum = ppr.children.enumFrom 0 from rfl]
    exact enum_find_none (fun c => c.tag == clark "pBdr") ppr.children 0 hfind
  have hro : wrap_border_group.repairOrderOf repair_schema
      = some ["top", "left", "bottom", "right", "between", "bar"] := by decide
  have hsort : sort_by_spec [t, l] ["top", "left", "bottom", "right", "between", "bar"]
      = (false, [t, l]) := by
    simp [sort_by_spec, List.insertionSort, List.orderedInsert, sort_key, ht, hl,
          dict_get, make_rank_index, dict_insert, List.enum, List.enumFrom]
  have hnb : ∀ p ∈ ppr.children, ¬ (p.tag == clark "pBdr") = true := by
    rw [← List.find?_eq_none]
    exact hfind
  rw [wrap_border_group, hfind2]
  simp only [hne, Bool.false_eq_true, if_false, hmap, hro, hsort]
  have hbef := filtered_enum_no_border ppr.children
    (fun n => n < insert_slot_index repair_schema ppr "pBdr")
  have haft := filtered_enum_no_border ppr.children
    (fun n => insert_slot_index repair_schema ppr "pBdr" ≤ n)
  set bef := (ppr.children.enum.filter (fun p => decide (p.1 < insert_slot_index repair_schema ppr "pBdr"
        ∧ p.1 ∉ (ppr.children.enum.filter
            (fun p => decide (tag_name p.2.tag ∈ BORDER_LEAVES))).map Prod.fst))).map Prod.snd
    with hbefdef
  set aft := (ppr.children.enum.filter (fun p => decide (insert_slot_index repair_schema ppr "pBdr" ≤ p.1
        ∧ p.1 ∉ (ppr.children.enum.filter
            (fun p => decide (tag_name p.2.tag ∈ BORDER_LEAVES))).map Prod.fst))).map Prod.snd
    with haftdef
  have hflat : List.filter (fun n => tag_name n.tag ∈ BORDER_LEAVES)
      (bef ++ (⟨clark "pBdr", [], [t, l]⟩ : Elem) :: aft) = [] := by
    rw [List.filter_append, List.filter_cons]
    have h1 : List.filter (fun n => tag_name n.tag ∈ BORDER_LEAVES) bef = [] := by
      rw [List.filter_eq_nil_iff]
      intro c hc
      simp [(hbef c hc).2]
    have h2 : List.filter (fun n => tag_name n.tag ∈ BORDER_LEAVES) aft = [] := by
      rw [List.filter_eq_nil_iff]
      intro c hc
      simp [(haft c hc).2]
    have hpb : (decide (tag_name (⟨clark "pBdr", [], [t, l]⟩ : Elem).tag ∈ BORDER_LEAVES)) = false := by
      show (decide (tag_name (clark "pBdr") ∈ BORDER_LEAVES)) = false
      decide
    rw [h1, h2, if_neg (by simp [hpb])]
    rfl
  refine ⟨rfl, ?_, ?_⟩
  · rw [List.filter_append, List.filter_cons]
    have h1 : List.filter (fun c => c.tag == clark "pBdr") bef = [] := by
      rw [List.filter_eq_nil_iff]
      intro c hc
      exact hnb c (hbef c hc).1
    have h2 : List.filter (fun c => c.tag == clark "pBdr") aft = [] := by
      rw [List.filter_eq_nil_iff]
      intro c hc
      exact hnb c (haft c hc).1
    rw [h1, h2]
    simp
  · have hempty2 : (((bef ++ (⟨clark "pBdr", [], [t, l]⟩ : Elem) :: aft).enumFrom 0).filter
        (fun p => tag_name p.2.tag ∈ BORDER_LEAVES)) = [] := by
      have h := enum_filter_map_snd (fun n => decide (tag_name n.tag ∈ BORDER_LEAVES))
        (bef ++ (⟨clark "pBdr", [], [t, l]⟩ : Elem) :: aft) 0
      rw [hflat] at h
      exact List.map_eq_nil_iff.mp h
    rw [wrap_border_group]
    simp only [show (⟨ppr.tag, ppr.attrs, bef ++ (⟨clark "pBdr", [], [t, l]⟩ : Elem) :: aft⟩ : Elem).children
        = bef ++ (⟨clark "pBdr", [], [t, l]⟩ : Elem) :: aft from rfl,
      show (bef ++ (⟨clark "pBdr", [], [t, l]⟩ : Elem) :: aft).enum
        = (bef ++ (⟨clark "pBdr", [], [t, l]⟩ : Elem) :: aft).enumFrom 0 from rfl,
      hempty2]
    rfl

/-- Witness for C7: a concrete `pPr` with loose `top` and `left` children. -/
theorem c7_border_grouping_witness :
    (wrap_border_group repair_schema
        ⟨clark "pPr", [], [⟨clark "top", [], []⟩, ⟨clark "left", [], []⟩]⟩).1 = 2
    ∧ ((wrap_border_group repair_schema
        ⟨clark "pPr", [], [⟨clark "top", [], []⟩, ⟨clark "left", [], []⟩]⟩).2.children.filter
          (fun c => c.tag == clark "pBdr"))
        = [(⟨clark "pBdr", [], [⟨clark "top", [], []⟩, ⟨clark "left", [], []⟩]⟩ : Elem)]
    ∧ wrap_border_group repair_schema
        (wrap_border_group repair_schema
          ⟨clark "pPr", [], [⟨clark "top", [], []⟩, ⟨clark "left", [], []⟩]⟩).2
        = (0, (wrap_border_group repair_schema
            ⟨clark "pPr", [], [⟨clark "top", [], []⟩, ⟨clark "left", [], []⟩]⟩).2) :=
  c7_border_grouping ⟨clark "pPr", [], [⟨clark "top", [], []⟩, ⟨clark "left", [], []⟩]⟩
    ⟨clark "top", [], []⟩ ⟨clark "left", [], []⟩ rfl rfl rfl rfl

/-- Enumerated indices are at least the start index (helper). -/
theorem le_fst_of_mem_enumFrom {α : Type} {p : Nat × α} :
    ∀ {l : List α} {k : Nat}, p ∈ l.enumFrom k → k ≤ p.1 := by
  intro l
  induction l with
  | nil => intro k h; simp [List.enumFrom] at h
  | cons x xs ih =>
    intro k h
    rcases List.mem_cons.mp h with rfl | h
    · exact Nat.le_refl _
    · exact Nat.le_of_succ_le (ih h)

/-- Enumerated indices are below start + length (helper). -/
theorem fst_lt_of_mem_enumFrom {α : Type} {p : Nat × α} :
    ∀ {l : List α} {k : Nat}, p ∈ l.enumFrom k → p.1 < k + l.length := by
  intro l
  induction l with
  | nil => intro k h; simp [List.enumFrom] at h
  | cons x xs ih =>
    intro k h
    rcases List.mem_cons.mp h with rfl | h
    · simp
    · have := ih h
      simp only [List.length_cons]
      omega

/-- Enumerated indices are strictly increasing (helper). -/
theorem pairwise_fst_lt_enumFrom {α : Type} :
    ∀ (l : List α) (k : Nat), (l.enumFrom k).Pairwise (fun a b => a.1 < b.1) := by
  intro l
  induction l with
  | nil => intro k; simp [List.enumFrom]
  | cons x xs ih =>
    intro k
    rw [List.enumFrom]
    refine List.Pairwise.cons ?_ (ih (k+1))
    intro q hq
    exact Nat.lt_of_lt_of_le (Nat.lt_succ_self k) (le_fst_of_mem_enumFrom hq)

/-- Entries of `dict_insert` come from the old dict or are the new pair
(helper). -/
theorem mem_dict_insert {α : Type} {p : String × α} {m : List (String × α)} {k : String} {v : α} :
    p ∈ dict_insert m k v → p ∈ m ∨ p = (k, v) := by
  intro h
  unfold dict_insert at h
  by_cases hex : (m.find? (fun q => q.1 == k)).isSome
  · rw [if_pos hex] at h
    rcases List.mem_map.mp h with ⟨q, hq, hpq⟩
    by_cases hqk : q.1 == k
    · rw [if_pos hqk] at hpq
      exact Or.inr hpq.symm
    · rw [if_neg hqk] at hpq
      exact Or.inl (hpq ▸ hq)
  · rw [if_neg hex] at h
    rcases List.mem_append.mp h with h | h
    · exact Or.inl h
    · exact Or.inr (List.mem_singleton.mp h)

/-- Every value stored in `make_rank_index` is an index into the sequence
(helper). -/
theorem rank_dict_values_lt {seq : List String} :
    ∀ q ∈ make_rank_index seq, q.2 < seq.length := by
  suffices hinv : ∀ (l : List (Nat × String)) (m : List (String × Nat)),
      (∀ q ∈ m, q.2 < seq.length) → (∀ x ∈ l, x.1 < seq.length) →
      ∀ q ∈ l.foldl (fun m x => dict_insert m x.2 x.1) m, q.2 < seq.length by
    intro q hq
    refine hinv seq.enum [] (by simp) ?_ q hq
    intro x hx
    simpa using fst_lt_of_mem_enumFrom (show x ∈ seq.enumFrom 0 from hx)
  intro l
  induction l with
  | nil => intro m hm _ q hq; exact hm q hq
  | cons x xs ih =>
    intro m hm hl q hq
    refine ih (dict_insert m x.2 x.1) ?_ (fun y hy => hl y (List.mem_cons_of_mem x hy)) q hq
    intro r hr
    rcases mem_dict_insert hr with hr | rfl
    · exact hm r hr
    · exact hl x (List.mem_cons_self x xs)

/-- A rank found in the rank dict is below the sequence length (helper). -/
theorem rank_lt_of_dict_get {seq : List String} {s : String} {v : Nat} :
    dict_get (make_rank_index seq) s = some v → v < seq.length := by
  intro h
  unfold dict_get at h
  rcases hfind : make_rank_index seq |>.find? (fun p => p.1 == s) with _ | q
  · rw [hfind] at h; simp at h
  · rw [hfind] at h
    have h2 : q.2 = v := by simpa using h
    have hq := List.mem_of_find?_eq_some hfind
    have := rank_dict_values_lt q hq
    omega

/-- A child has the sentinel rank exactly when its tag is unrecognized
(helper). -/
theorem rank_of_lt_iff_recognized {seq : List String} {c : Elem} :
    rank_of seq c = seq.length ↔ dict_get (make_rank_index seq) (tag_name c.tag) = none := by
  unfold rank_of
  rcases h : dict_get (make_rank_index seq) (tag_name c.tag) with _ | v
  · exact iff_of_true rfl rfl
  · have hvlt := rank_lt_of_dict_get h
    rw [Option.getD_some]
    exact iff_of_false (by omega) (by simp)

/-- The encoded sort key decomposes as rank times width plus index
(helper). -/
theorem sort_key_eq_rank (spec : List String) (n : Nat) (p : Nat × Elem) :
    sort_key spec n p = rank_of spec p.2 * n + p.1 := rfl

/-- Key order implies rank order when indices are within bounds (helper). -/
theorem rank_le_of_key_le {spec : List String} {n : Nat} {a b : Nat × Elem}
    (hb : b.1 < n)
    (h : sort_key spec n a ≤ sort_key spec n b) :
    rank_of spec a.2 ≤ rank_of spec b.2 := by
  rw [sort_key_eq_rank, sort_key_eq_rank] at h
  by_contra hc
  push_neg at hc
  have : rank_of spec b.2 * n + n ≤ rank_of spec a.2 * n := by
    calc rank_of spec b.2 * n + n = (rank_of spec b.2 + 1) * n := by ring
    _ ≤ rank_of spec a.2 * n := Nat.mul_le_mul_right n hc
  omega

/-- Equal keys force equal original indices when in bounds (helper). -/
theorem fst_eq_of_key_eq {spec : List String} {n : Nat} {a b : Nat × Elem}
    (ha : a.1 < n) (hb : b.1 < n)
    (h : sort_key spec n a = sort_key spec n b) : a.1 = b.1 := by
  have h1 : sort_key spec n a % n = a.1 := by
    rw [sort_key_eq_rank, Nat.mul_comm, Nat.mul_add_mod]
    exact Nat.mod_eq_of_lt ha
  have h2 : sort_key spec n b % n = b.1 := by
    rw [sort_key_eq_rank, Nat.mul_comm, Nat.mul_add_mod]
    exact Nat.mod_eq_of_lt hb
  rw [← h1, ← h2, h]

/-- Key order is strict between pairs with distinct original indices
(helper). -/
theorem key_lt_of_le_ne {spec : List String} {n : Nat} {a b : Nat × Elem}
    (ha : a.1 < n) (hb : b.1 < n)
    (hle : sort_key spec n a ≤ sort_key spec n b) (hne : a.1 ≠ b.1) :
    sort_key spec n a < sort_key spec n b :=
  lt_of_le_of_ne hle (fun heq => hne (fst_eq_of_key_eq ha hb heq))

/-- Two permuted pair lists with the same duplicate-free index projection
are equal (helper). -/
theorem eq_of_perm_of_map_fst_eq {α : Type} :
    ∀ (l₁ l₂ : List (Nat × α)), l₁.Perm l₂ → l₁.map Prod.fst = l₂.map Prod.fst →
      (l₂.map Prod.fst).Nodup → l₁ = l₂ := by
  intro l₁
  induction l₁ with
  | nil =>
    intro l₂ hp _ _
    exact (hp.symm.eq_nil).symm
  | cons a l₁' ih =>
    intro l₂ hp hfst hnd
    cases l₂ with
    | nil => exact absurd hp.eq_nil (by simp)
    | cons b l₂' =>
      simp only [List.map_cons, List.cons.injEq] at hfst
      have hamem : a ∈ b :: l₂' := hp.subset (List.mem_cons_self a l₁')
      rcases List.mem_cons.mp hamem with rfl | hal2
      · have hp' : l₁'.Perm l₂' := hp.cons_inv
        have hnd' : (l₂'.map Prod.fst).Nodup := by
          rw [List.map_cons, List.nodup_cons] at hnd
          exact hnd.2
        rw [ih l₂' hp' hfst.2 hnd']
      · exfalso
        have hmem2 : a.1 ∈ l₂'.map Prod.fst := List.mem_map.mpr ⟨a, hal2, rfl⟩
        rw [hfst.1] at hmem2
        rw [List.map_cons, List.nodup_cons] at hnd
        exact hnd.1 hmem2

/-- Filtering by a predicate on the element commutes with the second
projection (helper). -/
theorem filter_map_snd {α : Type} (pred : α → Bool) :
    ∀ l : List (Nat × α),
      (l.filter (fun q => pred q.2)).map Prod.snd = (l.map Prod.snd).filter pred := by
  intro l
  induction l with
  | nil => simp
  | cons x xs ih =>
    by_cases h : pred x.2 <;> simp [List.filter_cons, h, ih]

/-- C4: `sort_by_spec` reorders the children by a stable sort keyed
primarily by rank (index in the target sequence, sentinel
`len(target_sequence)` for unrecognized tags) and secondarily by original
index: the result is a permutation of the children whose ranks are
nondecreasing (recognized children in schema order, unrecognized children
— rank equal to the sentinel — after all recognized ones), the
unrecognized children keep their relative mutual order (their filtered
sublist is unchanged), a container with fewer than two children is always a
no-op, and if every child is unrecognized the children are returned
unchanged with `False`. -/
theorem c4_sort_by_spec_order :
    ∀ (spec_order : List String) (children : List Elem),
      (children.length < 2 → sort_by_spec children spec_order = (false, children))
      ∧ ((sort_by_spec children spec_order).2.Perm children)
      ∧ ((sort_by_spec children spec_order).2.Pairwise
          (fun a b => rank_of spec_order a ≤ rank_of spec_order b))
      ∧ ((sort_by_spec children spec_order).2.filter
            (fun c => rank_of spec_order c == spec_order.length)
          = children.filter (fun c => rank_of spec_order c == spec_order.length))
      ∧ ((∀ c ∈ children, dict_get (make_rank_index spec_order) (tag_name c.tag) = none) →
          sort_by_spec children spec_order = (false, children)) := by
  intro spec children
  by_cases hn : children.length < 2
  · have hres : sort_by_spec children spec = (false, children) := by
      unfold sort_by_spec
      rw [if_pos hn]
    refine ⟨fun _ => hres, by rw [hres], ?_, by rw [hres], fun _ => hres⟩
    rw [hres]
    rcases children with _ | ⟨x, _ | ⟨y, rest⟩⟩
    · simp
    · simp
    · simp only [List.length_cons] at hn
      omega
  · push_neg at hn
    haveI hTot : IsTotal (Nat × Elem)
        (fun a b => sort_key spec children.length a ≤ sort_key spec children.length b) :=
      ⟨fun a b => Nat.le_total _ _⟩
    haveI hTrans : IsTrans (Nat × Elem)
        (fun a b => sort_key spec children.length a ≤ sort_key spec children.length b) :=
      ⟨fun a b c => Nat.le_trans⟩
    set r := fun a b : Nat × Elem =>
      sort_key spec children.length a ≤ sort_key spec children.length b with hr
    set L := List.insertionSort r children.enum with hL
    have hperm : L.Perm children.enum := List.perm_insertionSort r children.enum
    have hsortedL : L.Pairwise r := List.sorted_insertionSort r children.enum
    have hfst_lt : ∀ p ∈ L, p.1 < children.length := by
      intro p hp
      have hpe : p ∈ children.enum := hperm.subset hp
      simpa using fst_lt_of_mem_enumFrom (show p ∈ children.enumFrom 0 from hpe)
    have hfstnodupE : ((children.enum).map Prod.fst).Nodup := by
      rw [List.enum_map_fst]
      exact List.nodup_range _
    have hresult : (sort_by_spec children spec).2 = L.map Prod.snd := by
      unfold sort_by_spec
      rw [if_neg (by omega)]
      simp only [← hr, ← hL]
      by_cases hid : L.map Prod.fst = (children.enum).map Prod.fst
      · rw [if_pos hid]
        have heq : L = children.enum := eq_of_perm_of_map_fst_eq L children.enum hperm hid hfstnodupE
        rw [heq, List.enum_map_snd]
      · rw [if_neg hid]
    have hpermR : (sort_by_spec children spec).2.Perm children := by
      rw [hresult]
      have h := hperm.map Prod.snd
      rwa [List.enum_map_snd] at h
    refine ⟨fun h => absurd h (by omega), hpermR, ?_, ?_, ?_⟩
    · rw [hresult, List.pairwise_map]
      refine hsortedL.imp_of_mem ?_
      intro a b ha hb hab
      exact rank_le_of_key_le (hfst_lt b hb) hab
    · rw [hresult, ← filter_map_snd]
      have hq : ∀ l : List Elem,
          l.filter (fun c => rank_of spec c == spec.length)
            = ((l.enum.filter (fun q => rank_of spec q.2 == spec.length)).map Prod.snd) := by
        intro l
        rw [show l.enum = l.enumFrom 0 from rfl,
            enum_filter_map_snd (fun c => rank_of spec c == spec.length)]
      rw [hq children]
      congr 1
      haveI : IsAntisymm (Nat × Elem)
          (fun a b => sort_key spec children.length a < sort_key spec children.length b) :=
        ⟨fun a b h1 h2 => absurd h1 (Nat.lt_asymm h2)⟩
      have hpermF := hperm.filter (fun q : Nat × Elem => rank_of spec q.2 == spec.length)
      have hfstnodupL : (L.map Prod.fst).Nodup :=
        ((hperm.map Prod.fst).nodup_iff).mpr hfstnodupE
      have hW : L.Pairwise (fun a b : Nat × Elem => a.1 ≠ b.1) := by
        have h : List.Pairwise (fun a b => a ≠ b) (L.map Prod.fst) := hfstnodupL
        rwa [List.pairwise_map] at h
      have hsorted1 : (L.filter (fun q : Nat × Elem => rank_of spec q.2 == spec.length)).Pairwise
          (fun a b => sort_key spec children.length a < sort_key spec children.length b) := by
        have hcomb := List.Pairwise.sublist
          (List.filter_sublist (p := fun q : Nat × Elem => rank_of spec q.2 == spec.length) L)
          (hsortedL.and hW)
        refine hcomb.imp_of_mem ?_
        intro a b ha hb hab
        have haL : a ∈ L := List.mem_of_mem_filter ha
        have hbL : b ∈ L := List.mem_of_mem_filter hb
        exact key_lt_of_le_ne (hfst_lt a haL) (hfst_lt b hbL) hab.1 hab.2
      have hsorted2 : ((children.enum).filter
          (fun q : Nat × Elem => rank_of spec q.2 == spec.length)).Pairwise
          (fun a b => sort_key spec children.length a < sort_key spec children.length b) := by
        have hfp : (children.enum).Pairwise (fun a b : Nat × Elem => a.1 < b.1) :=
          pairwise_fst_lt_enumFrom children 0
        have hcomb := List.Pairwise.sublist
          (List.filter_sublist (p := fun q : Nat × Elem => rank_of spec q.2 == spec.length)
            children.enum)
          hfp
        refine hcomb.imp_of_mem ?_
        intro a b ha hb hab
        have hqa : rank_of spec a.2 = spec.length := by
          simpa using (List.mem_filter.mp ha).2
        have hqb : rank_of spec b.2 = spec.length := by
          simpa using (List.mem_filter.mp hb).2
        rw [sort_key_eq_rank, sort_key_eq_rank, hqa, hqb]
        omega
      exact List.eq_of_perm_of_sorted hpermF hsorted1 hsorted2
    · intro hall
      have hallE : ∀ p ∈ children.enum, rank_of spec p.2 = spec.length := by
        intro p hp
        have hmem : p.2 ∈ children :=
          snd_mem_of_mem_enumFrom (show p ∈ children.enumFrom 0 from hp)
        unfold rank_of
        rw [hall p.2 hmem]
        rfl
      have hsortedE : (children.enum).Pairwise r := by
        refine (pairwise_fst_lt_enumFrom children 0).imp_of_mem ?_
        intro a b ha hb hab
        show sort_key spec children.length a ≤ sort_key spec children.length b
        rw [sort_key_eq_rank, sort_key_eq_rank, hallE a ha, hallE b hb]
        omega
      have hid : L = children.enum := List.Sorted.insertionSort_eq hsortedE
      unfold sort_by_spec
      rw [if_neg (by omega)]
      simp only [← hr, ← hL, hid]
      simp

/-- Witness for C4 with the target sequence `["a", "b"]`: a singleton child
list is a no-op; `[b, a, x]` (with `x` unrecognized) is permuted into
rank order with the unrecognized tail preserved; an all-unrecognized list
`[x, y]` is returned unchanged with `False`. -/
theorem c4_sort_by_spec_order_witness :
    sort_by_spec [(⟨"x", [], []⟩ : Elem)] ["a", "b"] = (false, [(⟨"x", [], []⟩ : Elem)])
    ∧ (sort_by_spec [(⟨"b", [], []⟩ : Elem), ⟨"a", [], []⟩, ⟨"x", [], []⟩] ["a", "b"]).2.Perm
        [(⟨"b", [], []⟩ : Elem), ⟨"a", [], []⟩, ⟨"x", [], []⟩]
    ∧ (sort_by_spec [(⟨"b", [], []⟩ : Elem), ⟨"a", [], []⟩, ⟨"x", [], []⟩] ["a", "b"]).2.Pairwise
        (fun a b => rank_of ["a", "b"] a ≤ rank_of ["a", "b"] b)
    ∧ ((sort_by_spec [(⟨"b", [], []⟩ : Elem), ⟨"a", [], []⟩, ⟨"x", [], []⟩] ["a", "b"]).2.filter
          (fun c => rank_of ["a", "b"] c == ["a", "b"].length)
        = ([(⟨"b", [], []⟩ : Elem), ⟨"a", [], []⟩, ⟨"x", [], []⟩].filter
            (fun c => rank_of ["a", "b"] c == ["a", "b"].length)))
    ∧ sort_by_spec [(⟨"x", [], []⟩ : Elem), ⟨"y", [], []⟩] ["a", "b"]
        = (false, [(⟨"x", [], []⟩ : Elem), ⟨"y", [], []⟩]) := by
  refine ⟨(c4_sort_by_spec_order ["a", "b"] [(⟨"x", [], []⟩ : Elem)]).1 (by decide),
    (c4_sort_by_spec_order ["a", "b"] [(⟨"b", [], []⟩ : Elem), ⟨"a", [], []⟩, ⟨"x", [], []⟩]).2.1,
    (c4_sort_by_spec_order ["a", "b"] [(⟨"b", [], []⟩ : Elem), ⟨"a", [], []⟩, ⟨"x", [], []⟩]).2.2.1,
    (c4_sort_by_spec_order ["a", "b"] [(⟨"b", [], []⟩ : Elem), ⟨"a", [], []⟩, ⟨"x", [], []⟩]).2.2.2.1,
    (c4_sort_by_spec_order ["a", "b"] [(⟨"x", [], []⟩ : Elem), ⟨"y", [], []⟩]).2.2.2.2 ?_⟩
  intro c hc
  fin_cases hc <;> decide

/-! C2 support: bridging `GridConsistencyDetector.scan` and
`DocumentFixer.align_grid` at tolerance 0.08 -/

theorem digit_nat_ne_empty {v : String} {n : Nat} (h : digit_nat v = some n) : ¬ (v = "") := by
  intro he
  subst he
  rw [show digit_nat "" = none from by decide] at h
  exact Option.noConfusion h

theorem truthy_of_digit_nat {v : String} {n : Nat} (h : digit_nat v = some n) :
    truthy (some v) = some v := by
  simp [truthy, digit_nat_ne_empty h]

theorem safe_int_of_digit_nat {v : String} {n : Nat} (h : digit_nat v = some n) :
    safe_int (some v) = some (n : Int) := by
  unfold digit_nat at h
  show safe_int_chars v.data = some (n : Int)
  cases hd : v.data with
  | nil => rw [hd] at h; simp [parse_digits] at h
  | cons c rest =>
    rw [hd] at h
    have hdig : c.isDigit = true := by
      unfold parse_digits at h
      rw [if_neg (by simp)] at h
      by_cases ha : (c :: rest).all Char.isDigit
      · have := List.all_eq_true.mp ha c (List.mem_cons_self _ _)
        simpa using this
      · rw [if_neg ha] at h
        simp at h
    have hc1 : ¬ (c = '-') := by
      intro hce
      rw [hce] at hdig
      exact absurd hdig (by decide)
    have hc2 : ¬ (c = '+') := by
      intro hce
      rw [hce] at hdig
      exact absurd hdig (by decide)
    rw [safe_int_chars, if_neg hc1, if_neg hc2, h]
    rfl

theorem grid_widths_go_of_digits :
    ∀ cols : List Elem,
      (∀ col ∈ cols, ((truthy (col.get (clark "w"))).bind digit_nat).isSome = true) →
      grid_widths_go cols
        = some (cols.filterMap
            (fun col => ((truthy (col.get (clark "w"))).bind digit_nat).map (fun n => (n : Int)))) := by
  intro cols
  induction cols with
  | nil => intro _; rfl
  | cons col rest ih =>
    intro h
    have hcol := h col (List.mem_cons_self _ _)
    have hrest := fun c hc => h c (List.mem_cons_of_mem _ hc)
    cases hget : col.get (clark "w") with
    | none => rw [hget] at hcol; simp [truthy] at hcol
    | some v =>
      rw [hget] at hcol
      cases htr : truthy (some v) with
      | none => rw [htr] at hcol; simp at hcol
      | some v' =>
        have hvv : v' = v := by
          by_cases hv : v = ""
          · rw [show truthy (some v) = none from by simp [truthy, hv]] at htr
            cases htr
          · rw [show truthy (some v) = some v from by simp [truthy, hv]] at htr
            injection htr with h2
            exact h2.symm
        have htr2 : truthy (some v) = some v := by rw [htr, hvv]
        rw [htr2] at hcol
        cases hdn : digit_nat v with
        | none => simp [hdn] at hcol
        | some n =>
          rw [grid_widths_go, hget, safe_int_of_digit_nat hdn, ih hrest]
          simp [List.filterMap_cons, hget, htr2, hdn]

theorem truthy_bind_none {v : String} (hdn : digit_nat v = none) :
    (truthy (some v)).bind digit_nat = none := by
  by_cases hv : v = ""
  · simp [truthy, hv]
  · simp [truthy, hv, hdn]

theorem span_agree {tc_pr : Elem} (h : span_ok tc_pr = true) :
    (node_int (tc_pr.find (clark "gridSpan")) (clark "val") 1).toNat = det_span tc_pr := by
  cases hgs : tc_pr.find (clark "gridSpan") with
  | none => simp [node_int, det_span, hgs, safe_int]
  | some se =>
    cases hval : se.get (clark "val") with
    | none => simp [node_int, det_span, hgs, hval, truthy, safe_int]
    | some v =>
      simp only [span_ok, hgs, hval] at h
      cases hdn : digit_nat v with
      | some nn =>
        simp only [hdn] at h
        have hpos : 0 < nn := of_decide_eq_true h
        have hnle : ¬ ((nn : Int) ≤ 0) := by omega
        simp [node_int, det_span, hgs, hval, safe_int_of_digit_nat hdn,
              truthy_of_digit_nat hdn, hdn, hnle]
      | none =>
        simp only [hdn] at h
        have hb := truthy_bind_none hdn
        cases hsi : safe_int (some v) with
        | none => simp [node_int, det_span, hgs, hval, hsi, hb]
        | some k =>
          simp only [hsi] at h
          have hk : k ≤ 0 := of_decide_eq_true h
          simp [node_int, det_span, hgs, hval, hsi, hb, hk]

theorem cells_walk_agree (widths : List Int) :
    ∀ (cells : List Elem) (cursor : Nat),
      (∀ c ∈ cells, (c.tag == clark "tc") = true) →
      cells_ok widths cursor cells = true →
      grid_scan_cells widths cursor cells = (align_cells 8 widths cursor cells).2 := by
  intro cells
  induction cells with
  | nil => intro cursor _ _; rfl
  | cons tc rest ih =>
    intro cursor htags hok
    have htc : (tc.tag == clark "tc") = true := htags tc (List.mem_cons_self _ _)
    have hrest : ∀ c ∈ rest, (c.tag == clark "tc") = true :=
      fun c hc => htags c (List.mem_cons_of_mem _ hc)
    cases hpr : tc.find (clark "tcPr") with
    | none =>
      simp only [cells_ok, hpr] at hok
      simp only [grid_scan_cells, align_cells, align_cell, hpr, htc, if_true]
      exact ih (cursor + 1) hrest hok
    | some tc_pr =>
      simp only [cells_ok, hpr, Bool.and_eq_true] at hok
      obtain ⟨⟨hso, hco⟩, hrestok⟩ := hok
      have hsp := span_agree hso
      have hihrec := ih (cursor + det_span tc_pr) hrest hrestok
      simp only [grid_scan_cells, align_cells, align_cell, hpr, htc, if_true, hsp]
      cases hw : tc_pr.find (clark "tcW") with
      | none =>
        simp only [hw]
        simpa using hihrec
      | some tc_w =>
        simp only [cell_ok, hw, Bool.and_eq_true] at hco
        obtain ⟨⟨hbound, hunit⟩, hwid⟩ := hco
        have hboundN : ¬ (widths.length < cursor + det_span tc_pr) := by
          have := of_decide_eq_true hbound
          omega
        have hunitP := of_decide_eq_true hunit
        simp only [hw, if_neg hboundN, if_neg (not_not_intro hunitP)]
        cases hwa : tc_w.get (clark "w") with
        | none =>
          simp only [hwa, truthy, safe_int, Option.none_bind]
          simpa using hihrec
        | some wv =>
          simp only [hwa] at hwid
          cases hdn : digit_nat wv with
          | some a =>
            have hsi := safe_int_of_digit_nat hdn
            have htr := truthy_of_digit_nat hdn
            simp only [hwa, htr, Option.some_bind, hdn, hsi, Int.natCast_natAbs, Nat.cast_ofNat]
            by_cases hpose : ((widths.drop cursor).take (det_span tc_pr)).sum ≤ 0
            · have h0 : ¬ (0 < ((widths.drop cursor).take (det_span tc_pr)).sum) := by omega
              simp only [if_pos hpose, h0, false_and, if_false]
              simpa using hihrec
            · push_neg at hpose
              simp only [if_neg (not_le.mpr hpose), hpose, true_and]
              by_cases hdrift : (8 : Int) * ((widths.drop cursor).take (det_span tc_pr)).sum
                  < 100 * |(a : Int) - ((widths.drop cursor).take (det_span tc_pr)).sum|
              · simp only [if_pos hdrift, List.singleton_append, List.cons_append,
                  List.nil_append, hihrec]
              · simp only [if_neg hdrift, List.nil_append]
                simpa using hihrec
          | none =>
            have hb := truthy_bind_none hdn
            have hsiN : safe_int (some wv) = none := by
              rw [hdn] at hwid
              simpa using hwid
            simp only [hwa, hb, hsiN]
            simpa using hihrec

theorem align_cells_ignore_non_tc (tolNum : Nat) (widths : List Int) :
    ∀ (cs : List Elem) (cursor : Nat),
      (align_cells tolNum widths cursor cs).2
        = (align_cells tolNum widths cursor (cs.filter (fun c => c.tag == clark "tc"))).2 := by
  intro cs
  induction cs with
  | nil => intro _; rfl
  | cons c rest ih =>
    intro cursor
    by_cases hc : (c.tag == clark "tc") = true
    · rw [List.filter_cons_of_pos (by simpa using hc)]
      simp only [align_cells, hc, if_true]
      rw [ih]
    · rw [List.filter_cons_of_neg (by simpa using hc)]
      simp only [align_cells, hc, if_false, Bool.false_eq_true]
      exact ih cursor

/-- C2 (amended): restricted to benign tables — every grid column width a
truthy digit string, every cell span/width/unit in the domain where
`isdigit()`-parsing and `int()`-parsing agree, spans staying inside the
grid (`table_ok`) — the grid-consistency detector's per-row flagged
`(actual, expected)` pairs coincide exactly with the cells the repair
pass's alignment procedure would flag when evaluated with tolerance 0.08.
Outside that domain the two walks genuinely diverge (width-unit handling,
nested-table eligibility, signed or zero values, grid overruns): see the
C2 counterexample. -/
theorem c2_grid_detector_refines_align (tbl : Elem) (h : table_ok tbl = true) :
    grid_table_row_flags tbl = align_table_row_flags 8 tbl := by
  unfold grid_table_row_flags align_table_row_flags
  cases hg : tbl.find (clark "tblGrid") with
  | none => simp [grid_widths, hg]
  | some grid =>
    simp only [table_ok, hg, Bool.and_eq_true, List.all_eq_true] at h
    obtain ⟨hcols, hrows⟩ := h
    have hgw := grid_widths_go_of_digits (grid.findall (clark "gridCol"))
      (fun col hcol => hcols col hcol)
    simp only [grid_widths, hgw]
    by_cases hemp : ((grid.findall (clark "gridCol")).filterMap
        (fun col => ((truthy (col.get (clark "w"))).bind digit_nat).map
          (fun n => (n : Int)))).isEmpty = true
    · simp only [if_pos hemp]
    · simp only [if_neg hemp]
      refine List.map_congr_left (fun tr htr => ?_)
      rw [align_cells_ignore_non_tc]
      exact cells_walk_agree _ (tr.findall (clark "tc")) 0
        (fun c hc => (List.mem_filter.mp hc).2) (hrows tr htr)


/-- Witness for C2: a concrete benign two-column table whose second cell
drifts by 100%; both the detector walk and the 0.08-tolerance repair walk
flag exactly that cell. -/
theorem c2_grid_detector_refines_align_witness :
    table_ok c2_good_tbl = true
    ∧ grid_table_row_flags c2_good_tbl = align_table_row_flags 8 c2_good_tbl
    ∧ grid_table_row_flags c2_good_tbl = [[(2000, 1000)]] :=
  ⟨by decide, c2_grid_detector_refines_align c2_good_tbl (by decide), by decide⟩

/-- Counterexample to C2 as stated: a table whose only cell declares its
width in `pct` units.  The detector never reads the width-unit attribute,
so it emits a WARNING for the cell (2000 against a grid sum of 1000),
while the repair pass's check — at any tolerance, here 0.08 — skips the
cell because its unit is not absent/empty/`dxa`: the tree is returned
untouched with zero adjustments.  The claimed cell-for-cell equivalence of
the two checks therefore fails. -/
theorem c2_counterexample_width_unit :
    grid_table_issues 1 c2_pct_tbl
      = [⟨Gravity.warning, "table[1]/row[1]", "Cell width 2000 deviates from grid sum 1000"⟩]
    ∧ align_table_row_flags 8 c2_pct_tbl = [[]]
    ∧ (align_grid 8 c2_pct_tbl).1 = c2_pct_tbl
    ∧ (align_grid 8 c2_pct_tbl).2.2 = 0 :=
  ⟨rfl, by decide, rfl, rfl⟩
